import Mathlib

/-!
# Multicast socket construction (`src/msock.c`)

A shallow embedding of the three routines of `msock.c`:
`mcast_send_socket`, `mcast_sendto_all` and `mcast_recv_socket`.

The operating system is an explicit parameter (`OS`): every system call the
C code issues is appended to a chronological trace together with the value
the operating system returned for it, and the answer to a call may depend on
everything that happened before.  Diagnostic output (`perror`, `printf`,
`fprintf`) is not part of the model, nor are the `WIN32` branches
(`WSAStartup`, `DieWithError`), which are compiled out on POSIX systems.
Integers of the C code are `Int`/`Nat`; the one place where a conversion
matters, the comparison of the `ssize_t` result of `sendto` with the `size_t`
length, is modelled with 64-bit wrap-around (`toSSizeT`, `toSizeT`).
-/

namespace Msock

/-! ## Data model -/

/-- Address families (`AF_*` / `PF_*`; the two spellings are the same constants). -/
inductive SaFamily where
  | AF_UNSPEC
  | AF_INET
  | AF_INET6
  | other (n : Nat)
  deriving DecidableEq, Repr

/-- A `struct sockaddr`: the family, the port and the address bytes
(`sin_addr` of a `sockaddr_in`, `sin6_addr` of a `sockaddr_in6`). -/
structure Sockaddr where
  sa_family : SaFamily
  port : Nat
  addr : Nat
  deriving DecidableEq, Repr

/-- A `struct addrinfo` node as returned by `getaddrinfo`. -/
structure Addrinfo where
  ai_family : SaFamily
  ai_socktype : Nat
  ai_addrlen : Nat
  ai_addr : Sockaddr
  deriving DecidableEq, Repr

/-- The hints handed to `getaddrinfo`. -/
structure Hints where
  ai_family : SaFamily
  ai_socktype : Nat
  ai_flags : Nat
  deriving DecidableEq, Repr

/-- One node of the list built by `getifaddrs`; `ifa_addr = none` is a null pointer. -/
structure Ifaddrs where
  ifa_name : String
  ifa_flags : Nat
  ifa_addr : Option Sockaddr
  deriving DecidableEq, Repr

/-- Socket option levels used by the code. -/
inductive Level where
  | SOL_SOCKET
  | IPPROTO_IP
  | IPPROTO_IPV6
  deriving DecidableEq, Repr

/-- Socket option names used by the code. -/
inductive OptName where
  | SO_REUSEADDR
  | SO_RCVBUF
  | IP_MULTICAST_TTL
  | IP_MULTICAST_IF
  | IP_ADD_MEMBERSHIP
  | IPV6_MULTICAST_HOPS
  | IPV6_MULTICAST_IF
  | IPV6_ADD_MEMBERSHIP
  deriving DecidableEq, Repr

/-- The object a `setsockopt` option pointer points to. -/
inductive OptVal where
  | int (v : Int)
  | in_addr_t (a : Nat)
  | uint (n : Nat)
  | sockaddr (sa : Sockaddr)
  | ip_mreq (imr_multiaddr imr_interface : Nat)
  | ipv6_mreq (ipv6mr_multiaddr ipv6mr_interface : Nat)
  deriving DecidableEq, Repr

/-- The system and library calls that `msock.c` issues, with their arguments.
`close` is listed so that descriptor ownership can be stated; the code never
issues it. -/
inductive Call where
  | getaddrinfo (node service : Option String) (hints : Hints)
  | freeaddrinfo (ai : Addrinfo)
  | socket (domain : SaFamily) (type : Nat) (protocol : Nat)
  | setsockopt (fd : Int) (level : Level) (optname : OptName) (optval : OptVal) (optlen : Nat)
  | getsockopt (fd : Int) (level : Level) (optname : OptName)
  | bind (fd : Int) (addr : Sockaddr) (addrlen : Nat)
  | getifaddrs
  | freeifaddrs (l : List Ifaddrs)
  | if_nametoindex (name : String)
  | sendto (fd : Int) (buf : List Nat) (len : Nat) (flags : Int) (dest : Sockaddr) (addrlen : Nat)
  | close (fd : Int)
  deriving DecidableEq, Repr

/-- A call together with the value it returned. -/
structure Event where
  call : Call
  ret : Int
  deriving DecidableEq, Repr

/-- The operating system as seen by the code.  `respond` gives the integer
result of `socket`, `setsockopt`, `getsockopt`, `bind` and `sendto`, given the
events so far (the value read by `getsockopt` is only printed); the other fields give the objects produced by the resolver
and the interface enumeration. -/
structure OS where
  respond : List Event → Call → Int
  getaddrinfo : Option String → Option String → Hints → Except Int Addrinfo
  getifaddrs : Option (List Ifaddrs)
  if_nametoindex : String → Nat

/-! ## Constants of the system headers -/

def SOCK_DGRAM : Nat := 2
def AI_PASSIVE : Nat := 1
def AI_NUMERICHOST : Nat := 4
def IFF_MULTICAST : Nat := 0x1000
def sizeof_int : Nat := 4
def sizeof_in_addr_t : Nat := 4
def sizeof_sockaddr_in : Nat := 16
def sizeof_sockaddr_in6 : Nat := 28
def sizeof_ip_mreq : Nat := 8
def sizeof_ipv6_mreq : Nat := 20
def SSIZE_MAX : Nat := 2 ^ 63 - 1

/-- Conversion of a `ssize_t` to `size_t`, as done by the comparison
`sendto(...) != len` (64-bit `size_t`). -/
def toSizeT (r : Int) : Nat := (r % (2 ^ 64 : Int)).toNat

/-- Narrowing of an arbitrary integer to the range of `ssize_t`. -/
def toSSizeT (r : Int) : Int := (r + 2 ^ 63) % (2 ^ 64 : Int) - 2 ^ 63

/-- Issue a call: ask the operating system, record the event. -/
def sys (os : OS) (h : List Event) (c : Call) : Int × List Event :=
  let r := os.respond h c
  (r, h ++ [⟨c, r⟩])

/-- Issue a call with no result (`freeaddrinfo`, `freeifaddrs`). -/
def sysVoid (h : List Event) (c : Call) : List Event := h ++ [⟨c, 0⟩]

/-! ## `mcast_sendto_all` -/

/-- The three `continue` tests at the head of both interface loops:
non-null address, family equal to `fam`, `IFF_MULTICAST` set. -/
def qualifies (fam : SaFamily) (ifa : Ifaddrs) : Bool :=
  match ifa.ifa_addr with
  | none => false
  | some sa => sa.sa_family = fam && !(Nat.land ifa.ifa_flags IFF_MULTICAST == 0)

/-- Issue `sendto`; its result is a `ssize_t`. -/
def sysSendto (os : OS) (h : List Event) (c : Call) : Int × List Event :=
  let r := toSSizeT (os.respond h c)
  (r, h ++ [⟨c, r⟩])

/-- Lines 125-148: what `mcast_sendto_all` does for one interface that passed
the three `continue` tests, `sa` being its `ifa_addr`.  The Boolean is `true`
when one of the three `return -1` statements is reached. -/
def sendto_body (os : OS) (sockfd : Int) (buf : List Nat) (len : Nat) (flags : Int)
    (dest_addr : Sockaddr) (addrlen : Nat) (sa : Sockaddr) (h : List Event) :
    Bool × List Event :=
  let s4 : Bool × List Event :=
    if sa.sa_family = SaFamily.AF_INET then
      let x := sys os h (Call.setsockopt sockfd Level.IPPROTO_IP OptName.IP_MULTICAST_IF
        (OptVal.sockaddr sa) sizeof_sockaddr_in)
      (decide (x.1 ≠ 0), x.2)
    else (false, h)
  if s4.1 then s4
  else
    let s6 : Bool × List Event :=
      if sa.sa_family = SaFamily.AF_INET6 then
        let x := sys os s4.2 (Call.setsockopt sockfd Level.IPPROTO_IPV6
          OptName.IPV6_MULTICAST_IF (OptVal.sockaddr sa) sizeof_sockaddr_in6)
        (decide (x.1 ≠ 0), x.2)
      else (false, s4.2)
    if s6.1 then s6
    else
      let x := sysSendto os s6.2 (Call.sendto sockfd buf len flags dest_addr addrlen)
      (decide (toSizeT x.1 ≠ len), x.2)

/-- The `for` loop of `mcast_sendto_all` (lines 120-149), run over the
remaining list.  `none` means the loop ran to its end, `some r` that the
function returns `r` from inside the loop; `all` is the head of the list, which
the error paths hand to `freeifaddrs`. -/
def sendto_loop (os : OS) (sockfd : Int) (buf : List Nat) (len : Nat) (flags : Int)
    (dest_addr : Sockaddr) (addrlen : Nat) (all : List Ifaddrs) :
    List Ifaddrs → List Event → Option Int × List Event
  | [], h => (none, h)
  | ifa :: rest, h =>
    match ifa.ifa_addr with
    | none => sendto_loop os sockfd buf len flags dest_addr addrlen all rest h
    | some sa =>
      if sa.sa_family ≠ dest_addr.sa_family then
        sendto_loop os sockfd buf len flags dest_addr addrlen all rest h
      else if Nat.land ifa.ifa_flags IFF_MULTICAST == 0 then
        sendto_loop os sockfd buf len flags dest_addr addrlen all rest h
      else
        let b := sendto_body os sockfd buf len flags dest_addr addrlen sa h
        if b.1 then (some (-1), sysVoid b.2 (Call.freeifaddrs all))
        else sendto_loop os sockfd buf len flags dest_addr addrlen all rest b.2

/-- `mcast_sendto_all` (lines 109-153): result and trace of calls. -/
def mcast_sendto_all (os : OS) (sockfd : Int) (buf : List Nat) (len : Nat) (flags : Int)
    (dest_addr : Sockaddr) (addrlen : Nat) : Int × List Event :=
  match os.getifaddrs with
  | none => (-1, [⟨Call.getifaddrs, -1⟩])
  | some ifaddr =>
    match sendto_loop os sockfd buf len flags dest_addr addrlen ifaddr ifaddr
        [⟨Call.getifaddrs, 0⟩] with
    | (some r, h) => (r, h)
    | (none, h) => (0, sysVoid h (Call.freeifaddrs ifaddr))

/-! ## `mcast_send_socket` -/

/-- `mcast_send_socket` (lines 25-106).  The result is the returned `SOCKET`,
the address list stored through `multicastAddr`, and the trace. -/
def mcast_send_socket (os : OS) (multicastIP multicastPort : String) (multicastTTL : Int) :
    Int × Option Addrinfo × List Event :=
  let hints : Hints := ⟨SaFamily.AF_UNSPEC, SOCK_DGRAM, AI_NUMERICHOST⟩
  let cg := Call.getaddrinfo (some multicastIP) (some multicastPort) hints
  match os.getaddrinfo (some multicastIP) (some multicastPort) hints with
  | Except.error status => (-1, none, [⟨cg, status⟩])
  | Except.ok ai =>
    let h0 : List Event := [⟨cg, 0⟩]
    let s := sys os h0 (Call.socket ai.ai_family ai.ai_socktype 0)
    let sock := s.1
    if sock < 0 then (-1, some ai, sysVoid s.2 (Call.freeaddrinfo ai))
    else
      let t := sys os s.2 (Call.setsockopt sock
        (if ai.ai_family = SaFamily.AF_INET6 then Level.IPPROTO_IPV6 else Level.IPPROTO_IP)
        (if ai.ai_family = SaFamily.AF_INET6 then OptName.IPV6_MULTICAST_HOPS
          else OptName.IP_MULTICAST_TTL)
        (OptVal.int multicastTTL) sizeof_int)
      if t.1 ≠ 0 then (-1, some ai, sysVoid t.2 (Call.freeaddrinfo ai))
      else
        let s4 : Bool × List Event :=
          if ai.ai_family = SaFamily.AF_INET then
            let x := sys os t.2 (Call.setsockopt sock Level.IPPROTO_IP OptName.IP_MULTICAST_IF
              (OptVal.in_addr_t 0) sizeof_in_addr_t)
            (decide (x.1 ≠ 0), x.2)
          else (false, t.2)
        if s4.1 then (-1, some ai, sysVoid s4.2 (Call.freeaddrinfo ai))
        else
          let s6 : Bool × List Event :=
            if ai.ai_family = SaFamily.AF_INET6 then
              let x := sys os s4.2 (Call.setsockopt sock Level.IPPROTO_IPV6
                OptName.IPV6_MULTICAST_IF (OptVal.uint 0) sizeof_int)
              (decide (x.1 ≠ 0), x.2)
            else (false, s4.2)
          if s6.1 then (-1, some ai, sysVoid s6.2 (Call.freeaddrinfo ai))
          else (sock, some ai, s6.2)

/-! ## `mcast_recv_socket` -/

/-- What a run of C code yields: a returned value, or undefined behaviour
(an access outside the bounds of `if_index_used`). -/
inductive Outcome where
  | ret (v : Int)
  | undefined
  deriving DecidableEq, Repr

/-- How the join loop of `mcast_recv_socket` ends: at the end of the list (with
the final usage table), at a `goto error`, or in an out-of-bounds access. -/
inductive LoopRes where
  | completed (if_index_used : List Nat)
  | error
  | undefined
  deriving DecidableEq, Repr

/-- Lines 270-313: the group join for one interface.  The Boolean is `true`
when a `goto error` is reached. -/
def join_group (os : OS) (sock : Int) (multicastAddr : Addrinfo) (sa : Sockaddr)
    (if_index : Nat) (h : List Event) : Bool × List Event :=
  if multicastAddr.ai_family = SaFamily.AF_INET ∧
      multicastAddr.ai_addrlen = sizeof_sockaddr_in then
    let x := sys os h (Call.setsockopt sock Level.IPPROTO_IP OptName.IP_ADD_MEMBERSHIP
      (OptVal.ip_mreq multicastAddr.ai_addr.addr sa.addr) sizeof_ip_mreq)
    (decide (x.1 ≠ 0), x.2)
  else if multicastAddr.ai_family = SaFamily.AF_INET6 ∧
      multicastAddr.ai_addrlen = sizeof_sockaddr_in6 then
    let x := sys os h (Call.setsockopt sock Level.IPPROTO_IPV6 OptName.IPV6_ADD_MEMBERSHIP
      (OptVal.ipv6_mreq multicastAddr.ai_addr.addr if_index) sizeof_ipv6_mreq)
    (decide (x.1 ≠ 0), x.2)
  else (true, h)

/-- The `for` loop of `mcast_recv_socket` (lines 251-314) over the remaining
list, with the usage table `if_index_used` as explicit state.  The read of
line 262 is checked against the length of the table; the write of line 263
uses the index just read, so it is in bounds whenever the read is. -/
def recv_loop (os : OS) (sock : Int) (multicastAddr : Addrinfo) :
    List Ifaddrs → List Nat → List Event → LoopRes × List Event
  | [], if_index_used, h => (LoopRes.completed if_index_used, h)
  | ifa :: rest, if_index_used, h =>
    match ifa.ifa_addr with
    | none => recv_loop os sock multicastAddr rest if_index_used h
    | some sa =>
      if sa.sa_family ≠ multicastAddr.ai_family then
        recv_loop os sock multicastAddr rest if_index_used h
      else if Nat.land ifa.ifa_flags IFF_MULTICAST == 0 then
        recv_loop os sock multicastAddr rest if_index_used h
      else
        let if_index := os.if_nametoindex ifa.ifa_name
        let h1 := h ++ [⟨Call.if_nametoindex ifa.ifa_name, if_index⟩]
        if if_index = 0 then (LoopRes.error, h1)
        else
          match if_index_used[if_index]? with
          | none => (LoopRes.undefined, h1)
          | some u =>
            if u ≠ 0 then recv_loop os sock multicastAddr rest if_index_used h1
            else
              let j := join_group os sock multicastAddr sa if_index h1
              if j.1 then (LoopRes.error, j.2)
              else recv_loop os sock multicastAddr rest (if_index_used.set if_index 1) j.2

/-- The statements after the `error:` label and before the final `return sock`
(lines 317-322 and 327-332): each list is released when its pointer is non-null. -/
def release (localAddr multicastAddr : Option Addrinfo) (ifaddr : List Ifaddrs)
    (h : List Event) : List Event :=
  let h1 := match localAddr with
    | some ai => sysVoid h (Call.freeaddrinfo ai)
    | none => h
  let h2 := match multicastAddr with
    | some ai => sysVoid h1 (Call.freeaddrinfo ai)
    | none => h1
  if ifaddr ≠ [] then sysVoid h2 (Call.freeifaddrs ifaddr) else h2

/-- The local state of `mcast_recv_socket` when it enters the interface loop. -/
structure RecvState where
  sock : Int
  multicastAddr : Addrinfo
  localAddr : Addrinfo
  ifaddr : List Ifaddrs
  trace : List Event

/-- Lines 175-249 of `mcast_recv_socket`: the two resolutions, `socket`,
`SO_REUSEADDR`, `bind`, the receive-buffer negotiation and `getifaddrs`.
`Except.error tr` is a `goto error`, with the complete trace of the call
(the `error:` block included); the function then returns -1. -/
def recv_setup (os : OS) (multicastIP multicastPort : String) (multicastRecvBufSize : Int) :
    Except (List Event) RecvState :=
  let hints1 : Hints := ⟨SaFamily.AF_UNSPEC, 0, AI_NUMERICHOST⟩
  let cg1 := Call.getaddrinfo (some multicastIP) none hints1
  match os.getaddrinfo (some multicastIP) none hints1 with
  | Except.error status => Except.error (release none none [] [⟨cg1, status⟩])
  | Except.ok multicastAddr =>
    let hints2 : Hints := ⟨multicastAddr.ai_family, SOCK_DGRAM, AI_PASSIVE⟩
    let cg2 := Call.getaddrinfo none (some multicastPort) hints2
    match os.getaddrinfo none (some multicastPort) hints2 with
    | Except.error status =>
      Except.error (release none (some multicastAddr) [] [⟨cg1, 0⟩, ⟨cg2, status⟩])
    | Except.ok localAddr =>
      let fail (h : List Event) : Except (List Event) RecvState :=
        Except.error (release (some localAddr) (some multicastAddr) [] h)
      let s := sys os [⟨cg1, 0⟩, ⟨cg2, 0⟩]
        (Call.socket localAddr.ai_family localAddr.ai_socktype 0)
      let sock := s.1
      if sock < 0 then fail s.2
      else
        let r := sys os s.2 (Call.setsockopt sock Level.SOL_SOCKET OptName.SO_REUSEADDR
          (OptVal.int 1) sizeof_int)
        if r.1 = -1 then fail r.2
        else
          let b := sys os r.2 (Call.bind sock localAddr.ai_addr localAddr.ai_addrlen)
          if b.1 ≠ 0 then fail b.2
          else
            let g1 := sys os b.2 (Call.getsockopt sock Level.SOL_SOCKET OptName.SO_RCVBUF)
            if g1.1 ≠ 0 then fail g1.2
            else
              let s2 := sys os g1.2 (Call.setsockopt sock Level.SOL_SOCKET OptName.SO_RCVBUF
                (OptVal.int multicastRecvBufSize) sizeof_int)
              if s2.1 ≠ 0 then fail s2.2
              else
                let g2 := sys os s2.2 (Call.getsockopt sock Level.SOL_SOCKET OptName.SO_RCVBUF)
                if g2.1 ≠ 0 then fail g2.2
                else
                  match os.getifaddrs with
                  | none => fail (g2.2 ++ [⟨Call.getifaddrs, -1⟩])
                  | some ifaddr =>
                    Except.ok ⟨sock, multicastAddr, localAddr, ifaddr,
                      g2.2 ++ [⟨Call.getifaddrs, 0⟩]⟩

/-- `mcast_recv_socket` (lines 156-335): the table `if_index_used` is zeroed
(line 173), the socket is set up, the interface loop runs, and the lists are
released on both exits.  `MAX_IF_INDEX` comes from `msock.h`. -/
def mcast_recv_socket (os : OS) (MAX_IF_INDEX : Nat) (multicastIP multicastPort : String)
    (multicastRecvBufSize : Int) : Outcome × List Event :=
  let if_index_used : List Nat := List.replicate (MAX_IF_INDEX + 1) 0
  match recv_setup os multicastIP multicastPort multicastRecvBufSize with
  | Except.error tr => (Outcome.ret (-1), tr)
  | Except.ok st =>
    match recv_loop os st.sock st.multicastAddr st.ifaddr if_index_used st.trace with
    | (LoopRes.completed _, h) =>
      (Outcome.ret st.sock, release (some st.localAddr) (some st.multicastAddr) st.ifaddr h)
    | (LoopRes.error, h) =>
      (Outcome.ret (-1), release (some st.localAddr) (some st.multicastAddr) st.ifaddr h)
    | (LoopRes.undefined, h) => (Outcome.undefined, h)

/-! ## Vocabulary for the statements about traces -/

/-- The outbound-interface `setsockopt` that lines 127-142 issue for an
interface whose address `sa` is IPv4 or IPv6. -/
def select_call (sockfd : Int) (sa : Sockaddr) : Call :=
  if sa.sa_family = SaFamily.AF_INET6 then
    Call.setsockopt sockfd Level.IPPROTO_IPV6 OptName.IPV6_MULTICAST_IF
      (OptVal.sockaddr sa) sizeof_sockaddr_in6
  else
    Call.setsockopt sockfd Level.IPPROTO_IP OptName.IP_MULTICAST_IF
      (OptVal.sockaddr sa) sizeof_sockaddr_in

/-- The events of one successful round of `mcast_sendto_all` for the interface
`ifa`: the outbound-interface option is set (result 0), then one `sendto` of the
whole payload transmits `len` bytes. -/
def round_ok (sockfd : Int) (buf : List Nat) (len : Nat) (flags : Int)
    (dest_addr : Sockaddr) (addrlen : Nat) (ifa : Ifaddrs) : List Event :=
  match ifa.ifa_addr with
  | none => []
  | some sa =>
    [⟨select_call sockfd sa, 0⟩, ⟨Call.sendto sockfd buf len flags dest_addr addrlen, len⟩]

/-- The successful rounds for the qualifying descriptors of `l`, in
enumeration order. -/
def rounds_ok (sockfd : Int) (buf : List Nat) (len : Nat) (flags : Int)
    (dest_addr : Sockaddr) (addrlen : Nat) : List Ifaddrs → List Event
  | [] => []
  | ifa :: rest =>
    (if qualifies dest_addr.sa_family ifa then round_ok sockfd buf len flags dest_addr addrlen ifa
      else []) ++ rounds_ok sockfd buf len flags dest_addr addrlen rest

/-- Is the event a `sendto`? -/
def isSendto (e : Event) : Bool :=
  match e.call with
  | Call.sendto _ _ _ _ _ _ => true
  | _ => false

/-- Is the event a `setsockopt`? -/
def isSetsockopt (e : Event) : Bool :=
  match e.call with
  | Call.setsockopt _ _ _ _ _ => true
  | _ => false

/-- The group join that lines 270-309 issue for an interface with address `sa`
and index `if_index`, when the group is a well-formed IPv4 or IPv6 address. -/
def join_call (sock : Int) (multicastAddr : Addrinfo) (sa : Sockaddr) (if_index : Nat) : Call :=
  if multicastAddr.ai_family = SaFamily.AF_INET then
    Call.setsockopt sock Level.IPPROTO_IP OptName.IP_ADD_MEMBERSHIP
      (OptVal.ip_mreq multicastAddr.ai_addr.addr sa.addr) sizeof_ip_mreq
  else
    Call.setsockopt sock Level.IPPROTO_IPV6 OptName.IPV6_ADD_MEMBERSHIP
      (OptVal.ipv6_mreq multicastAddr.ai_addr.addr if_index) sizeof_ipv6_mreq

/-- The group is a well-formed IPv4 or IPv6 address (the two join branches). -/
def group_ok (multicastAddr : Addrinfo) : Prop :=
  (multicastAddr.ai_family = SaFamily.AF_INET ∧ multicastAddr.ai_addrlen = sizeof_sockaddr_in) ∨
  (multicastAddr.ai_family = SaFamily.AF_INET6 ∧ multicastAddr.ai_addrlen = sizeof_sockaddr_in6)

instance (multicastAddr : Addrinfo) : Decidable (group_ok multicastAddr) := by
  unfold group_ok; infer_instance

/-- Is the event a group join (`IP_ADD_MEMBERSHIP` or `IPV6_ADD_MEMBERSHIP`)? -/
def isJoin (e : Event) : Bool :=
  match e.call with
  | Call.setsockopt _ _ OptName.IP_ADD_MEMBERSHIP _ _ => true
  | Call.setsockopt _ _ OptName.IPV6_ADD_MEMBERSHIP _ _ => true
  | _ => false

/-- Is the event a `close`? -/
def isClose (e : Event) : Bool :=
  match e.call with
  | Call.close _ => true
  | _ => false

/-- The descriptors open after the events of a trace, given those open before:
a successful `socket` opens its result, a successful `close` closes its argument. -/
def open_fds (before : List Int) : List Event → List Int
  | [] => before
  | e :: tr =>
    match e.call with
    | Call.socket _ _ _ => if 0 ≤ e.ret then open_fds (e.ret :: before) tr else open_fds before tr
    | Call.close fd => if e.ret = 0 then open_fds (before.erase fd) tr else open_fds before tr
    | _ => open_fds before tr

/-- Store-and-read-back model of socket options: the value of option
`(level, optname)` of descriptor `fd` after a trace is the one written by the
last successful `setsockopt` of that option, if any. -/
def sockopt_read (fd : Int) (level : Level) (optname : OptName) : List Event → Option OptVal
  | [] => none
  | e :: tr =>
    match sockopt_read fd level optname tr with
    | some v => some v
    | none =>
      match e.call with
      | Call.setsockopt fd2 level2 optname2 v _ =>
        if fd2 = fd ∧ level2 = level ∧ optname2 = optname ∧ e.ret = 0 then some v else none
      | _ => none

/-- The join plan of one build: the qualifying descriptors that are the first
of their interface index in enumeration order, with that index; `seen` holds
the indices of earlier descriptors. -/
def join_plan (os : OS) (fam : SaFamily) : List Ifaddrs → Finset Nat → List (Ifaddrs × Nat)
  | [], _ => []
  | d :: rest, seen =>
    if qualifies fam d then
      if os.if_nametoindex d.ifa_name ∈ seen then join_plan os fam rest seen
      else (d, os.if_nametoindex d.ifa_name) ::
        join_plan os fam rest (insert (os.if_nametoindex d.ifa_name) seen)
    else join_plan os fam rest seen

/-- The successful join event of a plan entry. -/
def plan_event (sock : Int) (multicastAddr : Addrinfo) (p : Ifaddrs × Nat) : Option Event :=
  p.1.ifa_addr.map (fun sa => ⟨join_call sock multicastAddr sa p.2, 0⟩)

/-- Is the event a `socket` or a `close`? -/
def isFdEvent (e : Event) : Bool :=
  match e.call with
  | Call.socket _ _ _ => true
  | Call.close _ => true
  | _ => false

/-- How a loop ended, without its final state. -/
inductive Ending where
  | completed
  | error
  | undefined
  deriving DecidableEq, Repr

/-- The ending of a run of `recv_loop`. -/
def LoopRes.ending : LoopRes → Ending
  | LoopRes.completed _ => Ending.completed
  | LoopRes.error => Ending.error
  | LoopRes.undefined => Ending.undefined

/-- The join loop as the specification words it, over an unbounded set of
already-joined interface indices: for each qualifying descriptor compute its
index; index 0 is an error; an index already in the set is skipped; otherwise
the group join is issued (its failure is an error) and the index is added. -/
def recv_loop_set (os : OS) (sock : Int) (multicastAddr : Addrinfo) :
    List Ifaddrs → Finset Nat → List Event → Ending × List Event
  | [], _, h => (Ending.completed, h)
  | ifa :: rest, joined, h =>
    match ifa.ifa_addr with
    | none => recv_loop_set os sock multicastAddr rest joined h
    | some sa =>
      if qualifies multicastAddr.ai_family ifa then
        let if_index := os.if_nametoindex ifa.ifa_name
        let h1 := h ++ [⟨Call.if_nametoindex ifa.ifa_name, if_index⟩]
        if if_index = 0 then (Ending.error, h1)
        else if if_index ∈ joined then recv_loop_set os sock multicastAddr rest joined h1
        else
          let j := join_group os sock multicastAddr sa if_index h1
          if j.1 then (Ending.error, j.2)
          else recv_loop_set os sock multicastAddr rest (insert if_index joined) j.2
      else recv_loop_set os sock multicastAddr rest joined h

/-- The usage table `used` represents the set `joined`: an entry that exists
is non-zero exactly when its index is in the set. -/
def table_repr (used : List Nat) (joined : Finset Nat) : Prop :=
  ∀ i u, used[i]? = some u → (u ≠ 0 ↔ i ∈ joined)

/-! ## Sample environments -/

/-- First IPv4 address of `eth0` (multicast capable). -/
def eth0_v4 : Ifaddrs := ⟨"eth0", 0x1043, some ⟨SaFamily.AF_INET, 0, 0xC0A80001⟩⟩

/-- Second IPv4 address of `eth0`. -/
def eth0_v4b : Ifaddrs := ⟨"eth0", 0x1043, some ⟨SaFamily.AF_INET, 0, 0x0A000001⟩⟩

/-- IPv4 address of `eth1` (multicast capable). -/
def eth1_v4 : Ifaddrs := ⟨"eth1", 0x1043, some ⟨SaFamily.AF_INET, 0, 0xC0A80101⟩⟩

/-- IPv6 address of `eth0`. -/
def eth0_v6 : Ifaddrs := ⟨"eth0", 0x1043, some ⟨SaFamily.AF_INET6, 0, 0xFE800000000000000000000000000001⟩⟩

/-- The loopback interface: IPv4, `IFF_MULTICAST` clear. -/
def lo_v4 : Ifaddrs := ⟨"lo", 0x49, some ⟨SaFamily.AF_INET, 0, 0x7F000001⟩⟩

/-- IPv4 address of `wlan0` (multicast capable), an interface whose name the
sample host does not map to an index. -/
def wlan0_v4 : Ifaddrs := ⟨"wlan0", 0x1043, some ⟨SaFamily.AF_INET, 0, 0xC0A80201⟩⟩

/-- An entry without address. -/
def tun0_null : Ifaddrs := ⟨"tun0", 0x1090, none⟩

/-- The IPv4 group 239.1.2.3, port 5000. -/
def group_v4 : Sockaddr := ⟨SaFamily.AF_INET, 5000, 0xEF010203⟩

/-- The IPv6 group ff02::1:3, port 5000. -/
def group_v6 : Sockaddr := ⟨SaFamily.AF_INET6, 5000, 0xFF020000000000000000000000010003⟩

/-- Interface indices of the sample host. -/
def demo_index (name : String) : Nat :=
  if name = "lo" then 1 else if name = "eth0" then 2 else if name = "eth1" then 3 else 0

/-- Resolver of the sample host: a numeric group literal resolves to `group`,
the passive lookup to the wildcard address of the hinted family. -/
def demo_getaddrinfo (group : Sockaddr) (alen : Nat) (node _service : Option String)
    (hints : Hints) : Except Int Addrinfo :=
  match node with
  | some _ => Except.ok ⟨group.sa_family, hints.ai_socktype, alen, group⟩
  | none => Except.ok ⟨hints.ai_family, hints.ai_socktype, alen, ⟨hints.ai_family, group.port, 0⟩⟩

/-- A host on which every call succeeds: `socket` returns descriptor 3,
`sendto` transmits the whole payload. -/
def demo_os (group : Sockaddr) (alen : Nat) (ifs : List Ifaddrs) : OS where
  respond := fun _ c =>
    match c with
    | Call.socket _ _ _ => 3
    | Call.sendto _ _ len _ _ _ => len
    | _ => 0
  getaddrinfo := demo_getaddrinfo group alen
  getifaddrs := some ifs
  if_nametoindex := demo_index

/-- The same host, except that the call `bad` fails with -1 whenever issued. -/
def failing_os (group : Sockaddr) (alen : Nat) (ifs : List Ifaddrs) (bad : Call) : OS where
  respond := fun h c => if c = bad then -1 else (demo_os group alen ifs).respond h c
  getaddrinfo := demo_getaddrinfo group alen
  getifaddrs := some ifs
  if_nametoindex := demo_index

/-- A host on which the second `sendto` of a call transmits one byte only
(the first transmits the whole payload). -/
def short_send_os (ifs : List Ifaddrs) : OS where
  respond := fun h c =>
    match c with
    | Call.socket _ _ _ => 3
    | Call.sendto _ _ len _ _ _ => if (h.filter isSendto).length = 0 then len else 1
    | _ => 0
  getaddrinfo := demo_getaddrinfo group_v4 16
  getifaddrs := some ifs
  if_nametoindex := demo_index

/-- The state in which `mcast_recv_socket` enters its loop on the sample host,
for the group literal "239.1.2.3" (or its IPv6 counterpart), port "5000" and
a requested buffer of `size` bytes. -/
def demo_state (group : Sockaddr) (alen : Nat) (ifs : List Ifaddrs) (size : Int) : RecvState where
  sock := 3
  multicastAddr := ⟨group.sa_family, 0, alen, group⟩
  localAddr := ⟨group.sa_family, SOCK_DGRAM, alen, ⟨group.sa_family, group.port, 0⟩⟩
  ifaddr := ifs
  trace :=
    [⟨Call.getaddrinfo (some "239.1.2.3") none ⟨SaFamily.AF_UNSPEC, 0, AI_NUMERICHOST⟩, 0⟩,
     ⟨Call.getaddrinfo none (some "5000") ⟨group.sa_family, SOCK_DGRAM, AI_PASSIVE⟩, 0⟩,
     ⟨Call.socket group.sa_family SOCK_DGRAM 0, 3⟩,
     ⟨Call.setsockopt 3 Level.SOL_SOCKET OptName.SO_REUSEADDR (OptVal.int 1) sizeof_int, 0⟩,
     ⟨Call.bind 3 ⟨group.sa_family, group.port, 0⟩ alen, 0⟩,
     ⟨Call.getsockopt 3 Level.SOL_SOCKET OptName.SO_RCVBUF, 0⟩,
     ⟨Call.setsockopt 3 Level.SOL_SOCKET OptName.SO_RCVBUF (OptVal.int size) sizeof_int, 0⟩,
     ⟨Call.getsockopt 3 Level.SOL_SOCKET OptName.SO_RCVBUF, 0⟩,
     ⟨Call.getifaddrs, 0⟩]

/-! ## Theorems -/

/-! ## Auxiliary facts -/

theorem toSizeT_toSSizeT_eq (n : Int) (len : Nat) (hlen : len ≤ SSIZE_MAX) :
    toSizeT (toSSizeT n) = len ↔ toSSizeT n = (len : Int) := by
  unfold toSizeT toSSizeT SSIZE_MAX at *
  omega

theorem qualifies_iff (fam : SaFamily) (ifa : Ifaddrs) :
    qualifies fam ifa = true ↔
      ∃ sa, ifa.ifa_addr = some sa ∧ sa.sa_family = fam ∧
        Nat.land ifa.ifa_flags IFF_MULTICAST ≠ 0 := by
  unfold qualifies
  cases hsa : ifa.ifa_addr with
  | none => simp
  | some sa => simp

theorem sendto_loop_skip (os : OS) (sockfd : Int) (buf : List Nat) (len : Nat) (flags : Int)
    (dest_addr : Sockaddr) (addrlen : Nat) (all : List Ifaddrs) (ifa : Ifaddrs)
    (rest : List Ifaddrs) (h : List Event)
    (hq : qualifies dest_addr.sa_family ifa = false) :
    sendto_loop os sockfd buf len flags dest_addr addrlen all (ifa :: rest) h
      = sendto_loop os sockfd buf len flags dest_addr addrlen all rest h := by
  rw [sendto_loop]
  cases hsa : ifa.ifa_addr with
  | none => rfl
  | some sa =>
    have hn : ¬ (qualifies dest_addr.sa_family ifa = true) := by simp [hq]
    rw [qualifies_iff] at hn
    simp only [hsa, Option.some.injEq, exists_eq_left', not_and, not_not] at hn
    by_cases hf : sa.sa_family = dest_addr.sa_family
    · have := hn hf
      simp [hf, this]
    · simp [hf]

theorem sendto_loop_step (os : OS) (sockfd : Int) (buf : List Nat) (len : Nat) (flags : Int)
    (dest_addr : Sockaddr) (addrlen : Nat) (all : List Ifaddrs) (ifa : Ifaddrs)
    (rest : List Ifaddrs) (h : List Event) (sa : Sockaddr)
    (hsa : ifa.ifa_addr = some sa)
    (hq : qualifies dest_addr.sa_family ifa = true) :
    sendto_loop os sockfd buf len flags dest_addr addrlen all (ifa :: rest) h
      = if (sendto_body os sockfd buf len flags dest_addr addrlen sa h).1 then
          (some (-1), sysVoid (sendto_body os sockfd buf len flags dest_addr addrlen sa h).2
            (Call.freeifaddrs all))
        else sendto_loop os sockfd buf len flags dest_addr addrlen all rest
          (sendto_body os sockfd buf len flags dest_addr addrlen sa h).2 := by
  rw [sendto_loop]
  rw [qualifies_iff] at hq
  obtain ⟨sa2, h1, h2, h3⟩ := hq
  rw [hsa] at h1
  cases h1
  simp [hsa, h2, h3]

theorem select_call_isSetsockopt (sockfd : Int) (sa : Sockaddr) (r : Int) :
    isSetsockopt ⟨select_call sockfd sa, r⟩ = true ∧ isSendto ⟨select_call sockfd sa, r⟩ = false := by
  unfold select_call
  split <;> simp [isSetsockopt, isSendto]

theorem sendto_body_eq (os : OS) (sockfd : Int) (buf : List Nat) (len : Nat) (flags : Int)
    (dest_addr : Sockaddr) (addrlen : Nat) (sa : Sockaddr) (h : List Event)
    (hfam : sa.sa_family = SaFamily.AF_INET ∨ sa.sa_family = SaFamily.AF_INET6) :
    sendto_body os sockfd buf len flags dest_addr addrlen sa h
      = if os.respond h (select_call sockfd sa) ≠ 0 then
          (true, h ++ [⟨select_call sockfd sa, os.respond h (select_call sockfd sa)⟩])
        else
          (decide (toSizeT (toSSizeT (os.respond (h ++ [⟨select_call sockfd sa, 0⟩])
              (Call.sendto sockfd buf len flags dest_addr addrlen))) ≠ len),
            h ++ [⟨select_call sockfd sa, 0⟩] ++
              [⟨Call.sendto sockfd buf len flags dest_addr addrlen,
                toSSizeT (os.respond (h ++ [⟨select_call sockfd sa, 0⟩])
                  (Call.sendto sockfd buf len flags dest_addr addrlen))⟩]) := by
  unfold sendto_body select_call sys sysSendto
  rcases hfam with hf | hf
  · by_cases hr : os.respond h (Call.setsockopt sockfd Level.IPPROTO_IP OptName.IP_MULTICAST_IF
        (OptVal.sockaddr sa) sizeof_sockaddr_in) = 0
    · simp [hf, hr]
    · simp [hf, hr]
  · by_cases hr : os.respond h (Call.setsockopt sockfd Level.IPPROTO_IPV6
        OptName.IPV6_MULTICAST_IF (OptVal.sockaddr sa) sizeof_sockaddr_in6) = 0
    · simp [hf, hr]
    · simp [hf, hr]

/-- A loop that runs to its end has issued exactly the successful rounds of
the qualifying descriptors. -/
theorem sendto_loop_completed (os : OS) (sockfd : Int) (buf : List Nat) (len : Nat) (flags : Int)
    (dest_addr : Sockaddr) (addrlen : Nat) (all : List Ifaddrs)
    (hfam : dest_addr.sa_family = SaFamily.AF_INET ∨ dest_addr.sa_family = SaFamily.AF_INET6)
    (hlen : len ≤ SSIZE_MAX) :
    ∀ (l : List Ifaddrs) (h h2 : List Event),
      sendto_loop os sockfd buf len flags dest_addr addrlen all l h = (none, h2) →
      h2 = h ++ rounds_ok sockfd buf len flags dest_addr addrlen l := by
  intro l
  induction l with
  | nil =>
    intro h h2 hr
    simp [sendto_loop] at hr
    simp [rounds_ok, hr]
  | cons ifa rest ih =>
    intro h h2 hr
    cases hq : qualifies dest_addr.sa_family ifa with
    | false =>
      rw [sendto_loop_skip _ _ _ _ _ _ _ _ _ _ _ hq] at hr
      simp [rounds_ok, hq, ih h h2 hr]
    | true =>
      obtain ⟨sa, hsa, hf, _⟩ := (qualifies_iff _ _).1 hq
      rw [sendto_loop_step _ _ _ _ _ _ _ _ _ _ _ sa hsa hq] at hr
      have hfs : sa.sa_family = SaFamily.AF_INET ∨ sa.sa_family = SaFamily.AF_INET6 := by
        rw [hf]; exact hfam
      rw [sendto_body_eq _ _ _ _ _ _ _ _ _ hfs] at hr
      by_cases hr0 : os.respond h (select_call sockfd sa) = 0
      · simp only [hr0, ne_eq, not_true_eq_false, ↓reduceIte] at hr
        by_cases hn : toSizeT (toSSizeT (os.respond (h ++ [⟨select_call sockfd sa, 0⟩])
              (Call.sendto sockfd buf len flags dest_addr addrlen))) = len
        · simp only [hn, ne_eq, not_true_eq_false, decide_False, Bool.false_eq_true,
            ↓reduceIte] at hr
          have := ih _ _ hr
          rw [this]
          rw [(toSizeT_toSSizeT_eq _ _ hlen).1 hn]
          simp [rounds_ok, hq, round_ok, hsa]
        · simp [hn] at hr
      · simp [hr0] at hr

theorem sendto_loop_append (os : OS) (sockfd : Int) (buf : List Nat) (len : Nat) (flags : Int)
    (dest_addr : Sockaddr) (addrlen : Nat) (all : List Ifaddrs) (post : List Ifaddrs) :
    ∀ (pre : List Ifaddrs) (h h1 : List Event),
      sendto_loop os sockfd buf len flags dest_addr addrlen all pre h = (none, h1) →
      sendto_loop os sockfd buf len flags dest_addr addrlen all (pre ++ post) h
        = sendto_loop os sockfd buf len flags dest_addr addrlen all post h1 := by
  intro pre
  induction pre with
  | nil =>
    intro h h1 hr
    simp [sendto_loop] at hr
    simp [hr]
  | cons ifa rest ih =>
    intro h h1 hr
    cases hq : qualifies dest_addr.sa_family ifa with
    | false =>
      rw [sendto_loop_skip _ _ _ _ _ _ _ _ _ _ _ hq] at hr
      rw [List.cons_append, sendto_loop_skip _ _ _ _ _ _ _ _ _ _ _ hq]
      exact ih h h1 hr
    | true =>
      obtain ⟨sa, hsa, _, _⟩ := (qualifies_iff _ _).1 hq
      rw [sendto_loop_step _ _ _ _ _ _ _ _ _ _ _ sa hsa hq] at hr
      rw [List.cons_append, sendto_loop_step _ _ _ _ _ _ _ _ _ _ _ sa hsa hq]
      by_cases hb : (sendto_body os sockfd buf len flags dest_addr addrlen sa h).1 = true
      · simp [hb] at hr
      · simp only [hb, Bool.false_eq_true, ↓reduceIte] at hr ⊢
        exact ih _ _ hr

theorem rounds_ok_sendto (sockfd : Int) (buf : List Nat) (len : Nat) (flags : Int)
    (dest_addr : Sockaddr) (addrlen : Nat) (l : List Ifaddrs) :
    (rounds_ok sockfd buf len flags dest_addr addrlen l).filter isSendto
      = (l.filter (qualifies dest_addr.sa_family)).map
          (fun _ => (⟨Call.sendto sockfd buf len flags dest_addr addrlen, len⟩ : Event)) := by
  induction l with
  | nil => simp [rounds_ok]
  | cons ifa rest ih =>
    cases hq : qualifies dest_addr.sa_family ifa with
    | false => simp [rounds_ok, hq, ih]
    | true =>
      obtain ⟨sa, hsa, _, _⟩ := (qualifies_iff _ _).1 hq
      have hs := (select_call_isSetsockopt sockfd sa 0).2
      unfold isSendto at hs
      simp only at hs
      simp [rounds_ok, hq, ih, round_ok, hsa, List.filter_cons, isSendto, hs]

theorem rounds_ok_setsockopt (sockfd : Int) (buf : List Nat) (len : Nat) (flags : Int)
    (dest_addr : Sockaddr) (addrlen : Nat) (l : List Ifaddrs) :
    (rounds_ok sockfd buf len flags dest_addr addrlen l).filter isSetsockopt
      = (l.filter (qualifies dest_addr.sa_family)).filterMap
          (fun ifa => ifa.ifa_addr.map (fun sa => (⟨select_call sockfd sa, 0⟩ : Event))) := by
  induction l with
  | nil => simp [rounds_ok]
  | cons ifa rest ih =>
    cases hq : qualifies dest_addr.sa_family ifa with
    | false => simp [rounds_ok, hq, ih]
    | true =>
      obtain ⟨sa, hsa, _, _⟩ := (qualifies_iff _ _).1 hq
      have hs := (select_call_isSetsockopt sockfd sa 0).1
      unfold isSetsockopt at hs
      simp only at hs
      simp [rounds_ok, hq, ih, round_ok, hsa, List.filter_cons, isSetsockopt, hs]

theorem sendto_loop_some (os : OS) (sockfd : Int) (buf : List Nat) (len : Nat) (flags : Int)
    (dest_addr : Sockaddr) (addrlen : Nat) (all : List Ifaddrs) (r : Int) :
    ∀ (l : List Ifaddrs) (h h2 : List Event),
      sendto_loop os sockfd buf len flags dest_addr addrlen all l h = (some r, h2) → r = -1 := by
  intro l
  induction l with
  | nil => intro h h2 hloop; simp [sendto_loop] at hloop
  | cons ifa rest ih =>
    intro h h2 hloop
    cases hq : qualifies dest_addr.sa_family ifa with
    | false =>
      rw [sendto_loop_skip _ _ _ _ _ _ _ _ _ _ _ hq] at hloop
      exact ih _ _ hloop
    | true =>
      obtain ⟨sa, hsa, _, _⟩ := (qualifies_iff _ _).1 hq
      rw [sendto_loop_step _ _ _ _ _ _ _ _ _ _ _ sa hsa hq] at hloop
      by_cases hb : (sendto_body os sockfd buf len flags dest_addr addrlen sa h).1 = true
      · simp [hb] at hloop
        exact hloop.1.symm
      · simp only [hb, Bool.false_eq_true, ↓reduceIte] at hloop
        exact ih _ _ hloop

/-- C4: when `mcast_sendto_all` returns 0 for an IPv4 or IPv6 destination, the
interface enumeration succeeded and the trace is the enumeration, then for each
qualifying descriptor in enumeration order one successful outbound-interface
`setsockopt` followed by one `sendto` of the whole payload that transmitted
`len` bytes, then `freeifaddrs`.  The `sendto` events are as many as the
qualifying descriptors (no de-duplication), none is issued for another descriptor. -/
theorem mcast_sendto_all_success (os : OS) (sockfd : Int) (buf : List Nat) (len : Nat)
    (flags : Int) (dest_addr : Sockaddr) (addrlen : Nat) (tr : List Event)
    (hfam : dest_addr.sa_family = SaFamily.AF_INET ∨ dest_addr.sa_family = SaFamily.AF_INET6)
    (hlen : len ≤ SSIZE_MAX)
    (hret : mcast_sendto_all os sockfd buf len flags dest_addr addrlen = (0, tr)) :
    ∃ l, os.getifaddrs = some l ∧
      tr = [⟨Call.getifaddrs, 0⟩] ++ rounds_ok sockfd buf len flags dest_addr addrlen l
            ++ [⟨Call.freeifaddrs l, 0⟩] ∧
      tr.filter isSendto = (l.filter (qualifies dest_addr.sa_family)).map
          (fun _ => (⟨Call.sendto sockfd buf len flags dest_addr addrlen, len⟩ : Event)) ∧
      (tr.filter isSendto).length = (l.filter (qualifies dest_addr.sa_family)).length ∧
      tr.filter isSetsockopt = (l.filter (qualifies dest_addr.sa_family)).filterMap
          (fun ifa => ifa.ifa_addr.map (fun sa => (⟨select_call sockfd sa, 0⟩ : Event))) := by
  unfold mcast_sendto_all at hret
  cases hg : os.getifaddrs with
  | none => simp [hg] at hret
  | some l =>
    refine ⟨l, rfl, ?_⟩
    simp only [hg] at hret
    cases hloop : sendto_loop os sockfd buf len flags dest_addr addrlen l l
        [⟨Call.getifaddrs, 0⟩] with
    | mk res h2 =>
      rw [hloop] at hret
      cases res with
      | some r =>
        -- the loop returned from inside: the value is -1
        exfalso
        have hr : r = -1 := sendto_loop_some os sockfd buf len flags dest_addr addrlen l r
          l _ _ hloop
        simp [hr] at hret
      | none =>
        simp only [Prod.mk.injEq, true_and] at hret
        have h2eq := sendto_loop_completed os sockfd buf len flags dest_addr addrlen l hfam hlen
          l _ _ hloop
        have htr : tr = [⟨Call.getifaddrs, 0⟩] ++ rounds_ok sockfd buf len flags dest_addr addrlen l
            ++ [⟨Call.freeifaddrs l, 0⟩] := by
          rw [← hret, h2eq]; rfl
        refine ⟨htr, ?_, ?_, ?_⟩
        · rw [htr]
          simp [List.filter_append, rounds_ok_sendto, isSendto, List.filter_cons]
        · rw [htr]
          simp [List.filter_append, rounds_ok_sendto, isSendto, List.filter_cons]
        · rw [htr]
          simp [List.filter_append, rounds_ok_setsockopt, isSetsockopt, List.filter_cons]

theorem sendto_loop_none_qualify (os : OS) (sockfd : Int) (buf : List Nat) (len : Nat)
    (flags : Int) (dest_addr : Sockaddr) (addrlen : Nat) (all : List Ifaddrs) :
    ∀ (l : List Ifaddrs) (h : List Event),
      (∀ ifa ∈ l, qualifies dest_addr.sa_family ifa = false) →
      sendto_loop os sockfd buf len flags dest_addr addrlen all l h = (none, h) := by
  intro l
  induction l with
  | nil => intro h _; rfl
  | cons ifa rest ih =>
    intro h hall
    rw [sendto_loop_skip _ _ _ _ _ _ _ _ _ _ _ (hall ifa (List.mem_cons_self _ _))]
    exact ih h (fun x hx => hall x (List.mem_cons_of_mem _ hx))

/-- Witness for C4: five enumerated entries, two of them qualifying for the
IPv4 group (both on `eth0`): two rounds, two sends. -/
theorem mcast_sendto_all_success_witness :
    ∃ l, (demo_os group_v4 16 [eth0_v4, lo_v4, tun0_null, eth0_v6, eth0_v4b]).getifaddrs = some l ∧
      [⟨Call.getifaddrs, 0⟩,
        ⟨select_call 3 ⟨SaFamily.AF_INET, 0, 0xC0A80001⟩, 0⟩,
        ⟨Call.sendto 3 [1, 2] 2 0 group_v4 16, 2⟩,
        ⟨select_call 3 ⟨SaFamily.AF_INET, 0, 0x0A000001⟩, 0⟩,
        ⟨Call.sendto 3 [1, 2] 2 0 group_v4 16, 2⟩,
        ⟨Call.freeifaddrs [eth0_v4, lo_v4, tun0_null, eth0_v6, eth0_v4b], 0⟩]
        = [⟨Call.getifaddrs, 0⟩] ++ rounds_ok 3 [1, 2] 2 0 group_v4 16 l
            ++ [⟨Call.freeifaddrs l, 0⟩] ∧
      List.filter isSendto [⟨Call.getifaddrs, 0⟩,
        ⟨select_call 3 ⟨SaFamily.AF_INET, 0, 0xC0A80001⟩, 0⟩,
        ⟨Call.sendto 3 [1, 2] 2 0 group_v4 16, 2⟩,
        ⟨select_call 3 ⟨SaFamily.AF_INET, 0, 0x0A000001⟩, 0⟩,
        ⟨Call.sendto 3 [1, 2] 2 0 group_v4 16, 2⟩,
        ⟨Call.freeifaddrs [eth0_v4, lo_v4, tun0_null, eth0_v6, eth0_v4b], 0⟩]
        = (l.filter (qualifies group_v4.sa_family)).map
          (fun _ => (⟨Call.sendto 3 [1, 2] 2 0 group_v4 16, ((2 : Nat) : Int)⟩ : Event)) ∧
      (List.filter isSendto [⟨Call.getifaddrs, 0⟩,
        ⟨select_call 3 ⟨SaFamily.AF_INET, 0, 0xC0A80001⟩, 0⟩,
        ⟨Call.sendto 3 [1, 2] 2 0 group_v4 16, 2⟩,
        ⟨select_call 3 ⟨SaFamily.AF_INET, 0, 0x0A000001⟩, 0⟩,
        ⟨Call.sendto 3 [1, 2] 2 0 group_v4 16, 2⟩,
        ⟨Call.freeifaddrs [eth0_v4, lo_v4, tun0_null, eth0_v6, eth0_v4b], 0⟩]).length
        = (l.filter (qualifies group_v4.sa_family)).length ∧
      List.filter isSetsockopt [⟨Call.getifaddrs, 0⟩,
        ⟨select_call 3 ⟨SaFamily.AF_INET, 0, 0xC0A80001⟩, 0⟩,
        ⟨Call.sendto 3 [1, 2] 2 0 group_v4 16, 2⟩,
        ⟨select_call 3 ⟨SaFamily.AF_INET, 0, 0x0A000001⟩, 0⟩,
        ⟨Call.sendto 3 [1, 2] 2 0 group_v4 16, 2⟩,
        ⟨Call.freeifaddrs [eth0_v4, lo_v4, tun0_null, eth0_v6, eth0_v4b], 0⟩]
        = (l.filter (qualifies group_v4.sa_family)).filterMap
          (fun ifa => ifa.ifa_addr.map (fun sa => (⟨select_call 3 sa, 0⟩ : Event))) :=
  mcast_sendto_all_success (demo_os group_v4 16 [eth0_v4, lo_v4, tun0_null, eth0_v6, eth0_v4b])
    3 [1, 2] 2 0 group_v4 16 _ (Or.inl rfl) (by decide) rfl

/-- C5: if, while a qualifying descriptor `d` is being processed (the loop got
through the descriptors `pre` before it, leaving the trace `h1`), the
outbound-interface `setsockopt` fails or `sendto` returns a value other than
`len`, then `mcast_sendto_all` returns -1 and the trace ends there: after the
failing call only `freeifaddrs` follows, nothing is issued for the later
descriptors `post`, and `h1` holds exactly the successful rounds of the
qualifying descriptors of `pre`, each sent to once. -/
theorem mcast_sendto_all_abort (os : OS) (sockfd : Int) (buf : List Nat) (len : Nat)
    (flags : Int) (dest_addr : Sockaddr) (addrlen : Nat)
    (pre post : List Ifaddrs) (d : Ifaddrs) (sa : Sockaddr) (h1 : List Event)
    (hl : os.getifaddrs = some (pre ++ d :: post))
    (hsa : d.ifa_addr = some sa)
    (hq : qualifies dest_addr.sa_family d = true)
    (hfam : dest_addr.sa_family = SaFamily.AF_INET ∨ dest_addr.sa_family = SaFamily.AF_INET6)
    (hlen : len ≤ SSIZE_MAX)
    (hpre : sendto_loop os sockfd buf len flags dest_addr addrlen (pre ++ d :: post) pre
      [⟨Call.getifaddrs, 0⟩] = (none, h1))
    (hfail : os.respond h1 (select_call sockfd sa) ≠ 0 ∨
      toSSizeT (os.respond (h1 ++ [⟨select_call sockfd sa, 0⟩])
        (Call.sendto sockfd buf len flags dest_addr addrlen)) ≠ (len : Int)) :
    mcast_sendto_all os sockfd buf len flags dest_addr addrlen
      = (-1, h1 ++
          (if os.respond h1 (select_call sockfd sa) ≠ 0 then
            [⟨select_call sockfd sa, os.respond h1 (select_call sockfd sa)⟩]
          else
            [⟨select_call sockfd sa, 0⟩,
             ⟨Call.sendto sockfd buf len flags dest_addr addrlen,
               toSSizeT (os.respond (h1 ++ [⟨select_call sockfd sa, 0⟩])
                 (Call.sendto sockfd buf len flags dest_addr addrlen))⟩])
          ++ [⟨Call.freeifaddrs (pre ++ d :: post), 0⟩]) ∧
    h1 = [⟨Call.getifaddrs, 0⟩] ++ rounds_ok sockfd buf len flags dest_addr addrlen pre ∧
    h1.filter isSendto = (pre.filter (qualifies dest_addr.sa_family)).map
      (fun _ => (⟨Call.sendto sockfd buf len flags dest_addr addrlen, len⟩ : Event)) := by
  have hh1 := sendto_loop_completed os sockfd buf len flags dest_addr addrlen _ hfam hlen
    pre _ _ hpre
  have hfs : sa.sa_family = SaFamily.AF_INET ∨ sa.sa_family = SaFamily.AF_INET6 := by
    obtain ⟨sa2, h2, h3, _⟩ := (qualifies_iff _ _).1 hq
    rw [hsa] at h2
    cases h2
    rw [h3]; exact hfam
  refine ⟨?_, hh1, ?_⟩
  · unfold mcast_sendto_all
    simp only [hl]
    rw [sendto_loop_append _ _ _ _ _ _ _ _ _ _ _ _ hpre,
      sendto_loop_step _ _ _ _ _ _ _ _ _ _ _ sa hsa hq,
      sendto_body_eq _ _ _ _ _ _ _ _ _ hfs]
    by_cases hr0 : os.respond h1 (select_call sockfd sa) = 0
    · have hne : toSSizeT (os.respond (h1 ++ [⟨select_call sockfd sa, 0⟩])
          (Call.sendto sockfd buf len flags dest_addr addrlen)) ≠ (len : Int) := by
        rcases hfail with hf | hf
        · exact absurd hr0 hf
        · exact hf
      have hne2 : toSizeT (toSSizeT (os.respond (h1 ++ [⟨select_call sockfd sa, 0⟩])
          (Call.sendto sockfd buf len flags dest_addr addrlen))) ≠ len :=
        fun hc => hne ((toSizeT_toSSizeT_eq _ _ hlen).1 hc)
      simp [hr0, hne2, sysVoid]
    · simp [hr0, sysVoid]
  · rw [hh1]
    simp [List.filter_append, rounds_ok_sendto, isSendto, List.filter_cons]

/-- C6: when the enumeration succeeds and no descriptor qualifies (the empty
list included), `mcast_sendto_all` returns 0 and its whole trace is the
enumeration and `freeifaddrs`: no `setsockopt` and no `sendto` is issued. -/
theorem mcast_sendto_all_no_qualifying (os : OS) (sockfd : Int) (buf : List Nat) (len : Nat)
    (flags : Int) (dest_addr : Sockaddr) (addrlen : Nat) (l : List Ifaddrs)
    (hl : os.getifaddrs = some l)
    (hnone : ∀ ifa ∈ l, qualifies dest_addr.sa_family ifa = false) :
    mcast_sendto_all os sockfd buf len flags dest_addr addrlen
      = (0, [⟨Call.getifaddrs, 0⟩, ⟨Call.freeifaddrs l, 0⟩]) ∧
    (∀ e ∈ (mcast_sendto_all os sockfd buf len flags dest_addr addrlen).2,
      isSetsockopt e = false ∧ isSendto e = false) := by
  have h : mcast_sendto_all os sockfd buf len flags dest_addr addrlen
      = (0, [⟨Call.getifaddrs, 0⟩, ⟨Call.freeifaddrs l, 0⟩]) := by
    unfold mcast_sendto_all
    simp only [hl]
    rw [sendto_loop_none_qualify _ _ _ _ _ _ _ _ l _ hnone]
    rfl
  refine ⟨h, ?_⟩
  rw [h]
  intro e he
  simp only [List.mem_cons, List.mem_singleton, List.not_mem_nil, or_false] at he
  rcases he with rfl | rfl <;> exact ⟨rfl, rfl⟩

/-- Witness for C5: three qualifying IPv4 descriptors, the `sendto` for the
second one transmits 1 byte of 2; the call returns -1 after it and nothing is
issued for the third. -/
theorem mcast_sendto_all_abort_witness :
    mcast_sendto_all (short_send_os [eth0_v4, eth1_v4, eth0_v4b]) 3 [1, 2] 2 0 group_v4 16
      = (-1, [⟨Call.getifaddrs, 0⟩, ⟨select_call 3 ⟨SaFamily.AF_INET, 0, 0xC0A80001⟩, 0⟩,
            ⟨Call.sendto 3 [1, 2] 2 0 group_v4 16, 2⟩] ++
          (if (short_send_os [eth0_v4, eth1_v4, eth0_v4b]).respond
              [⟨Call.getifaddrs, 0⟩, ⟨select_call 3 ⟨SaFamily.AF_INET, 0, 0xC0A80001⟩, 0⟩,
                ⟨Call.sendto 3 [1, 2] 2 0 group_v4 16, 2⟩]
              (select_call 3 ⟨SaFamily.AF_INET, 0, 0xC0A80101⟩) ≠ 0 then
            [⟨select_call 3 ⟨SaFamily.AF_INET, 0, 0xC0A80101⟩,
              (short_send_os [eth0_v4, eth1_v4, eth0_v4b]).respond
                [⟨Call.getifaddrs, 0⟩, ⟨select_call 3 ⟨SaFamily.AF_INET, 0, 0xC0A80001⟩, 0⟩,
                  ⟨Call.sendto 3 [1, 2] 2 0 group_v4 16, 2⟩]
                (select_call 3 ⟨SaFamily.AF_INET, 0, 0xC0A80101⟩)⟩]
          else
            [⟨select_call 3 ⟨SaFamily.AF_INET, 0, 0xC0A80101⟩, 0⟩,
             ⟨Call.sendto 3 [1, 2] 2 0 group_v4 16,
               toSSizeT ((short_send_os [eth0_v4, eth1_v4, eth0_v4b]).respond
                 ([⟨Call.getifaddrs, 0⟩, ⟨select_call 3 ⟨SaFamily.AF_INET, 0, 0xC0A80001⟩, 0⟩,
                    ⟨Call.sendto 3 [1, 2] 2 0 group_v4 16, 2⟩] ++
                  [⟨select_call 3 ⟨SaFamily.AF_INET, 0, 0xC0A80101⟩, 0⟩])
                 (Call.sendto 3 [1, 2] 2 0 group_v4 16))⟩])
          ++ [⟨Call.freeifaddrs ([eth0_v4] ++ eth1_v4 :: [eth0_v4b]), 0⟩]) ∧
    [⟨Call.getifaddrs, 0⟩, ⟨select_call 3 ⟨SaFamily.AF_INET, 0, 0xC0A80001⟩, 0⟩,
        ⟨Call.sendto 3 [1, 2] 2 0 group_v4 16, 2⟩]
      = [⟨Call.getifaddrs, 0⟩] ++ rounds_ok 3 [1, 2] 2 0 group_v4 16 [eth0_v4] ∧
    List.filter isSendto [⟨Call.getifaddrs, 0⟩,
        ⟨select_call 3 ⟨SaFamily.AF_INET, 0, 0xC0A80001⟩, 0⟩,
        ⟨Call.sendto 3 [1, 2] 2 0 group_v4 16, 2⟩]
      = ([eth0_v4].filter (qualifies group_v4.sa_family)).map
        (fun _ => (⟨Call.sendto 3 [1, 2] 2 0 group_v4 16, ((2 : Nat) : Int)⟩ : Event)) :=
  mcast_sendto_all_abort (short_send_os [eth0_v4, eth1_v4, eth0_v4b]) 3 [1, 2] 2 0 group_v4 16
    [eth0_v4] [eth0_v4b] eth1_v4 ⟨SaFamily.AF_INET, 0, 0xC0A80101⟩ _ rfl rfl rfl (Or.inl rfl)
    (by decide) rfl (Or.inr (by decide))

/-- Witness for C6: loopback without the multicast flag, an entry without
address and an IPv6 address, for an IPv4 destination. -/
theorem mcast_sendto_all_no_qualifying_witness :
    mcast_sendto_all (demo_os group_v4 16 [lo_v4, tun0_null, eth0_v6]) 3 [1, 2] 2 0 group_v4 16
      = (0, [⟨Call.getifaddrs, 0⟩, ⟨Call.freeifaddrs [lo_v4, tun0_null, eth0_v6], 0⟩]) ∧
    (∀ e ∈ (mcast_sendto_all (demo_os group_v4 16 [lo_v4, tun0_null, eth0_v6]) 3 [1, 2] 2 0
        group_v4 16).2, isSetsockopt e = false ∧ isSendto e = false) :=
  mcast_sendto_all_no_qualifying (demo_os group_v4 16 [lo_v4, tun0_null, eth0_v6]) 3 [1, 2] 2 0
    group_v4 16 [lo_v4, tun0_null, eth0_v6] rfl (by decide)

/-- C7 (evaluation of the code): for a qualifying IPv6 interface the value
handed to `IPV6_MULTICAST_IF` is the interface's `struct sockaddr` with length
`sizeof(struct sockaddr_in6)`, not its index (2 on this host) as an unsigned
integer; for a qualifying IPv4 interface the value handed to `IP_MULTICAST_IF`
is the `struct sockaddr` with length `sizeof(struct sockaddr_in)`, not the
4-byte `in_addr`. -/
theorem mcast_sendto_all_option_value :
    (mcast_sendto_all (demo_os group_v6 28 [eth0_v6]) 3 [1, 2] 2 0 group_v6 28).2
      = [⟨Call.getifaddrs, 0⟩,
         ⟨Call.setsockopt 3 Level.IPPROTO_IPV6 OptName.IPV6_MULTICAST_IF
            (OptVal.sockaddr ⟨SaFamily.AF_INET6, 0, 0xFE800000000000000000000000000001⟩) 28, 0⟩,
         ⟨Call.sendto 3 [1, 2] 2 0 group_v6 28, 2⟩,
         ⟨Call.freeifaddrs [eth0_v6], 0⟩] ∧
    (demo_os group_v6 28 [eth0_v6]).if_nametoindex eth0_v6.ifa_name = 2 ∧
    (⟨Call.setsockopt 3 Level.IPPROTO_IPV6 OptName.IPV6_MULTICAST_IF (OptVal.uint 2) 4, 0⟩ : Event)
      ∉ (mcast_sendto_all (demo_os group_v6 28 [eth0_v6]) 3 [1, 2] 2 0 group_v6 28).2 ∧
    (mcast_sendto_all (demo_os group_v4 16 [eth0_v4]) 3 [1, 2] 2 0 group_v4 16).2
      = [⟨Call.getifaddrs, 0⟩,
         ⟨Call.setsockopt 3 Level.IPPROTO_IP OptName.IP_MULTICAST_IF
            (OptVal.sockaddr ⟨SaFamily.AF_INET, 0, 0xC0A80001⟩) 16, 0⟩,
         ⟨Call.sendto 3 [1, 2] 2 0 group_v4 16, 2⟩,
         ⟨Call.freeifaddrs [eth0_v4], 0⟩] ∧
    (⟨Call.setsockopt 3 Level.IPPROTO_IP OptName.IP_MULTICAST_IF
        (OptVal.in_addr_t 0xC0A80001) 4, 0⟩ : Event)
      ∉ (mcast_sendto_all (demo_os group_v4 16 [eth0_v4]) 3 [1, 2] 2 0 group_v4 16).2 := by
  refine ⟨rfl, rfl, ?_, rfl, ?_⟩ <;> decide

theorem mcast_send_socket_addr (os : OS) (multicastIP multicastPort : String)
    (multicastTTL : Int) :
    (mcast_send_socket os multicastIP multicastPort multicastTTL).2.1
      = match os.getaddrinfo (some multicastIP) (some multicastPort)
          ⟨SaFamily.AF_UNSPEC, SOCK_DGRAM, AI_NUMERICHOST⟩ with
        | Except.ok ai => some ai
        | Except.error _ => none := by
  unfold mcast_send_socket
  cases hg : os.getaddrinfo (some multicastIP) (some multicastPort)
      ⟨SaFamily.AF_UNSPEC, SOCK_DGRAM, AI_NUMERICHOST⟩ with
  | error e => simp only [hg]
  | ok ai =>
    simp only [hg]
    split_ifs <;> rfl

/-- C9: when `mcast_send_socket` returns a socket for an endpoint resolved to
IPv4 or IPv6, the socket was created with the endpoint's family and socket
type, the family-correct multicast TTL option (`IP_MULTICAST_TTL` at
`IPPROTO_IP`, or `IPV6_MULTICAST_HOPS` at `IPPROTO_IPV6`) was set to
`multicastTTL` on it, the other family's option was not set, and reading the
option back from the trace returns `multicastTTL`. -/
theorem mcast_send_socket_ttl (os : OS) (multicastIP multicastPort : String) (multicastTTL : Int)
    (sock : Int) (ai : Addrinfo) (tr : List Event)
    (hret : mcast_send_socket os multicastIP multicastPort multicastTTL = (sock, some ai, tr))
    (hsock : sock ≠ -1)
    (hfam : ai.ai_family = SaFamily.AF_INET ∨ ai.ai_family = SaFamily.AF_INET6) :
    os.getaddrinfo (some multicastIP) (some multicastPort)
        ⟨SaFamily.AF_UNSPEC, SOCK_DGRAM, AI_NUMERICHOST⟩ = Except.ok ai ∧
    0 ≤ sock ∧
    (ai.ai_family = SaFamily.AF_INET →
      tr = [⟨Call.getaddrinfo (some multicastIP) (some multicastPort)
              ⟨SaFamily.AF_UNSPEC, SOCK_DGRAM, AI_NUMERICHOST⟩, 0⟩,
            ⟨Call.socket SaFamily.AF_INET ai.ai_socktype 0, sock⟩,
            ⟨Call.setsockopt sock Level.IPPROTO_IP OptName.IP_MULTICAST_TTL
              (OptVal.int multicastTTL) sizeof_int, 0⟩,
            ⟨Call.setsockopt sock Level.IPPROTO_IP OptName.IP_MULTICAST_IF
              (OptVal.in_addr_t 0) sizeof_in_addr_t, 0⟩] ∧
      sockopt_read sock Level.IPPROTO_IP OptName.IP_MULTICAST_TTL tr
        = some (OptVal.int multicastTTL) ∧
      sockopt_read sock Level.IPPROTO_IPV6 OptName.IPV6_MULTICAST_HOPS tr = none) ∧
    (ai.ai_family = SaFamily.AF_INET6 →
      tr = [⟨Call.getaddrinfo (some multicastIP) (some multicastPort)
              ⟨SaFamily.AF_UNSPEC, SOCK_DGRAM, AI_NUMERICHOST⟩, 0⟩,
            ⟨Call.socket SaFamily.AF_INET6 ai.ai_socktype 0, sock⟩,
            ⟨Call.setsockopt sock Level.IPPROTO_IPV6 OptName.IPV6_MULTICAST_HOPS
              (OptVal.int multicastTTL) sizeof_int, 0⟩,
            ⟨Call.setsockopt sock Level.IPPROTO_IPV6 OptName.IPV6_MULTICAST_IF
              (OptVal.uint 0) sizeof_int, 0⟩] ∧
      sockopt_read sock Level.IPPROTO_IPV6 OptName.IPV6_MULTICAST_HOPS tr
        = some (OptVal.int multicastTTL) ∧
      sockopt_read sock Level.IPPROTO_IP OptName.IP_MULTICAST_TTL tr = none) := by
  have hai := mcast_send_socket_addr os multicastIP multicastPort multicastTTL
  rw [hret] at hai
  cases hg : os.getaddrinfo (some multicastIP) (some multicastPort)
      ⟨SaFamily.AF_UNSPEC, SOCK_DGRAM, AI_NUMERICHOST⟩ with
  | error e => simp [hg] at hai
  | ok ai2 =>
    simp only [hg, Option.some.injEq] at hai
    subst hai
    unfold mcast_send_socket at hret
    simp only [hg, sys, sysVoid] at hret
    rcases hfam with hf | hf
    · simp only [hf, ↓reduceIte, reduceCtorEq] at hret
      split at hret
      · simp only [Prod.mk.injEq] at hret; exact absurd hret.1.symm hsock
      rename_i h1
      split at hret
      · simp only [Prod.mk.injEq] at hret; exact absurd hret.1.symm hsock
      rename_i h2
      split at hret
      · simp only [Prod.mk.injEq] at hret; exact absurd hret.1.symm hsock
      rename_i h3
      simp only [Bool.false_eq_true, ↓reduceIte, Prod.mk.injEq, true_and] at hret
      obtain ⟨hs, ht⟩ := hret
      simp only [ne_eq, not_not, decide_not, Bool.not_eq_eq_eq_not, Bool.not_true,
        decide_eq_false_iff_not] at h2 h3
      rw [hs] at h1 h2 h3 ht
      rw [h2] at h3 ht
      rw [h3] at ht
      refine ⟨rfl, by omega, fun _ => ?_, fun h6 => ?_⟩
      · rw [← ht]
        simp [sockopt_read]
      · rw [hf] at h6; exact absurd h6 (by decide)
    · simp only [hf, ↓reduceIte, reduceCtorEq] at hret
      split at hret
      · simp only [Prod.mk.injEq] at hret; exact absurd hret.1.symm hsock
      rename_i h1
      split at hret
      · simp only [Prod.mk.injEq] at hret; exact absurd hret.1.symm hsock
      rename_i h2
      split at hret
      · simp only [Prod.mk.injEq] at hret; exact absurd hret.1.symm hsock
      rename_i h3
      simp only [Bool.false_eq_true, ↓reduceIte, Prod.mk.injEq, true_and] at hret
      obtain ⟨hs, ht⟩ := hret
      simp only [ne_eq, not_not, decide_not, Bool.not_eq_eq_eq_not, Bool.not_true,
        decide_eq_false_iff_not] at h2 h3
      rw [hs] at h1 h2 h3 ht
      rw [h2] at h3 ht
      rw [h3] at ht
      refine ⟨rfl, by omega, fun h6 => ?_, fun _ => ?_⟩
      · rw [hf] at h6; exact absurd h6 (by decide)
      · rw [← ht]
        simp [sockopt_read]

/-! ## The join loop of `mcast_recv_socket` -/

theorem join_group_ok (os : OS) (sock : Int) (multicastAddr : Addrinfo) (sa : Sockaddr)
    (if_index : Nat) (h : List Event) (hg : group_ok multicastAddr) :
    join_group os sock multicastAddr sa if_index h
      = (decide (os.respond h (join_call sock multicastAddr sa if_index) ≠ 0),
          h ++ [⟨join_call sock multicastAddr sa if_index,
            os.respond h (join_call sock multicastAddr sa if_index)⟩]) := by
  unfold join_group join_call sys
  rcases hg with ⟨hf, hl⟩ | ⟨hf, hl⟩
  · simp [hf, hl]
  · simp [hf, hl]

theorem join_group_bad (os : OS) (sock : Int) (multicastAddr : Addrinfo) (sa : Sockaddr)
    (if_index : Nat) (h : List Event) (hg : ¬ group_ok multicastAddr) :
    join_group os sock multicastAddr sa if_index h = (true, h) := by
  unfold join_group
  unfold group_ok at hg
  push_neg at hg
  by_cases h4 : multicastAddr.ai_family = SaFamily.AF_INET ∧
      multicastAddr.ai_addrlen = sizeof_sockaddr_in
  · exact absurd h4.2 (hg.1 h4.1)
  · by_cases h6 : multicastAddr.ai_family = SaFamily.AF_INET6 ∧
        multicastAddr.ai_addrlen = sizeof_sockaddr_in6
    · exact absurd h6.2 (hg.2 h6.1)
    · simp only [h4, h6, if_false]

theorem join_call_isJoin (sock : Int) (multicastAddr : Addrinfo) (sa : Sockaddr)
    (if_index : Nat) (r : Int) :
    isJoin ⟨join_call sock multicastAddr sa if_index, r⟩ = true := by
  unfold join_call
  split <;> rfl

theorem recv_loop_skip (os : OS) (sock : Int) (multicastAddr : Addrinfo) (ifa : Ifaddrs)
    (rest : List Ifaddrs) (used : List Nat) (h : List Event)
    (hq : qualifies multicastAddr.ai_family ifa = false) :
    recv_loop os sock multicastAddr (ifa :: rest) used h
      = recv_loop os sock multicastAddr rest used h := by
  rw [recv_loop]
  cases hsa : ifa.ifa_addr with
  | none => rfl
  | some sa =>
    have hn : ¬ (qualifies multicastAddr.ai_family ifa = true) := by simp [hq]
    rw [qualifies_iff] at hn
    simp only [hsa, Option.some.injEq, exists_eq_left', not_and, not_not] at hn
    by_cases hf : sa.sa_family = multicastAddr.ai_family
    · have := hn hf
      simp [hf, this]
    · simp [hf]

theorem recv_loop_step (os : OS) (sock : Int) (multicastAddr : Addrinfo) (ifa : Ifaddrs)
    (rest : List Ifaddrs) (used : List Nat) (h : List Event) (sa : Sockaddr)
    (hsa : ifa.ifa_addr = some sa)
    (hq : qualifies multicastAddr.ai_family ifa = true) :
    recv_loop os sock multicastAddr (ifa :: rest) used h
      = if os.if_nametoindex ifa.ifa_name = 0 then
          (LoopRes.error,
            h ++ [⟨Call.if_nametoindex ifa.ifa_name, os.if_nametoindex ifa.ifa_name⟩])
        else
          match used[os.if_nametoindex ifa.ifa_name]? with
          | none =>
            (LoopRes.undefined,
              h ++ [⟨Call.if_nametoindex ifa.ifa_name, os.if_nametoindex ifa.ifa_name⟩])
          | some u =>
            if u ≠ 0 then
              recv_loop os sock multicastAddr rest used
                (h ++ [⟨Call.if_nametoindex ifa.ifa_name, os.if_nametoindex ifa.ifa_name⟩])
            else if (join_group os sock multicastAddr sa (os.if_nametoindex ifa.ifa_name)
                (h ++ [⟨Call.if_nametoindex ifa.ifa_name,
                  os.if_nametoindex ifa.ifa_name⟩])).1 then
              (LoopRes.error, (join_group os sock multicastAddr sa
                (os.if_nametoindex ifa.ifa_name)
                (h ++ [⟨Call.if_nametoindex ifa.ifa_name,
                  os.if_nametoindex ifa.ifa_name⟩])).2)
            else
              recv_loop os sock multicastAddr rest
                (used.set (os.if_nametoindex ifa.ifa_name) 1)
                (join_group os sock multicastAddr sa (os.if_nametoindex ifa.ifa_name)
                  (h ++ [⟨Call.if_nametoindex ifa.ifa_name,
                    os.if_nametoindex ifa.ifa_name⟩])).2 := by
  rw [recv_loop]
  rw [qualifies_iff] at hq
  obtain ⟨sa2, h1, h2, h3⟩ := hq
  rw [hsa] at h1
  cases h1
  simp only [hsa, h2, ne_eq, not_true_eq_false, ↓reduceIte, beq_iff_eq, h3, Nat.cast_ofNat]

theorem recv_loop_append (os : OS) (sock : Int) (multicastAddr : Addrinfo)
    (post : List Ifaddrs) :
    ∀ (pre : List Ifaddrs) (used used1 : List Nat) (h h1 : List Event),
      recv_loop os sock multicastAddr pre used h = (LoopRes.completed used1, h1) →
      recv_loop os sock multicastAddr (pre ++ post) used h
        = recv_loop os sock multicastAddr post used1 h1 := by
  intro pre
  induction pre with
  | nil =>
    intro used used1 h h1 hr
    simp [recv_loop] at hr
    simp [hr]
  | cons ifa rest ih =>
    intro used used1 h h1 hr
    cases hq : qualifies multicastAddr.ai_family ifa with
    | false =>
      rw [recv_loop_skip _ _ _ _ _ _ _ hq] at hr
      rw [List.cons_append, recv_loop_skip _ _ _ _ _ _ _ hq]
      exact ih _ _ _ _ hr
    | true =>
      obtain ⟨sa, hsa, _, _⟩ := (qualifies_iff _ _).1 hq
      rw [recv_loop_step _ _ _ _ _ _ _ sa hsa hq] at hr
      rw [List.cons_append, recv_loop_step _ _ _ _ _ _ _ sa hsa hq]
      by_cases h0 : os.if_nametoindex ifa.ifa_name = 0
      · simp [h0] at hr
      · simp only [h0, ↓reduceIte] at hr ⊢
        cases hu : used[os.if_nametoindex ifa.ifa_name]? with
        | none => simp [hu] at hr
        | some u =>
          simp only [hu] at hr ⊢
          by_cases hne : u = 0
          · simp only [hne, ne_eq, not_true_eq_false, ↓reduceIte] at hr ⊢
            by_cases hj : (join_group os sock multicastAddr sa (os.if_nametoindex ifa.ifa_name)
                (h ++ [⟨Call.if_nametoindex ifa.ifa_name,
                  os.if_nametoindex ifa.ifa_name⟩])).1 = true
            · simp [hj] at hr
            · simp only [hj, Bool.false_eq_true, ↓reduceIte] at hr ⊢
              exact ih _ _ _ _ hr
          · simp only [hne, ne_eq, not_false_eq_true, ↓reduceIte] at hr ⊢
            exact ih _ _ _ _ hr

theorem recv_loop_set_skip (os : OS) (sock : Int) (multicastAddr : Addrinfo) (ifa : Ifaddrs)
    (rest : List Ifaddrs) (joined : Finset Nat) (h : List Event)
    (hq : qualifies multicastAddr.ai_family ifa = false) :
    recv_loop_set os sock multicastAddr (ifa :: rest) joined h
      = recv_loop_set os sock multicastAddr rest joined h := by
  rw [recv_loop_set]
  cases hsa : ifa.ifa_addr with
  | none => rfl
  | some sa => simp [hq]

theorem recv_loop_set_step (os : OS) (sock : Int) (multicastAddr : Addrinfo) (ifa : Ifaddrs)
    (rest : List Ifaddrs) (joined : Finset Nat) (h : List Event) (sa : Sockaddr)
    (hsa : ifa.ifa_addr = some sa)
    (hq : qualifies multicastAddr.ai_family ifa = true) :
    recv_loop_set os sock multicastAddr (ifa :: rest) joined h
      = if os.if_nametoindex ifa.ifa_name = 0 then
          (Ending.error,
            h ++ [⟨Call.if_nametoindex ifa.ifa_name, os.if_nametoindex ifa.ifa_name⟩])
        else if os.if_nametoindex ifa.ifa_name ∈ joined then
          recv_loop_set os sock multicastAddr rest joined
            (h ++ [⟨Call.if_nametoindex ifa.ifa_name, os.if_nametoindex ifa.ifa_name⟩])
        else if (join_group os sock multicastAddr sa (os.if_nametoindex ifa.ifa_name)
            (h ++ [⟨Call.if_nametoindex ifa.ifa_name,
              os.if_nametoindex ifa.ifa_name⟩])).1 then
          (Ending.error, (join_group os sock multicastAddr sa
            (os.if_nametoindex ifa.ifa_name)
            (h ++ [⟨Call.if_nametoindex ifa.ifa_name,
              os.if_nametoindex ifa.ifa_name⟩])).2)
        else
          recv_loop_set os sock multicastAddr rest
            (insert (os.if_nametoindex ifa.ifa_name) joined)
            (join_group os sock multicastAddr sa (os.if_nametoindex ifa.ifa_name)
              (h ++ [⟨Call.if_nametoindex ifa.ifa_name,
                os.if_nametoindex ifa.ifa_name⟩])).2 := by
  rw [recv_loop_set]
  simp only [hsa, hq, ↓reduceIte]

theorem table_repr_set (used : List Nat) (joined : Finset Nat) (i : Nat)
    (hr : table_repr used joined) : table_repr (used.set i 1) (insert i joined) := by
  intro j u hj
  rw [List.getElem?_set] at hj
  by_cases hij : i = j
  · subst hij
    simp only [↓reduceIte] at hj
    split at hj
    · cases hj; simp
    · simp at hj
  · simp only [hij, ↓reduceIte] at hj
    have := hr j u hj
    rw [this, Finset.mem_insert]
    constructor
    · intro hm; exact Or.inr hm
    · rintro (rfl | hm)
      · exact absurd rfl hij
      · exact hm

theorem table_repr_zero (n : Nat) : table_repr (List.replicate n 0) ∅ := by
  intro i u hi
  rw [List.getElem?_replicate] at hi
  split at hi
  · cases hi; simp
  · simp at hi

/-- Refinement: a run of the table loop that stays within the bounds of the
table is, ending and trace, the run of the set loop. -/
theorem recv_loop_refines (os : OS) (sock : Int) (multicastAddr : Addrinfo) :
    ∀ (l : List Ifaddrs) (used : List Nat) (joined : Finset Nat) (h : List Event),
      table_repr used joined →
      (recv_loop os sock multicastAddr l used h).1 ≠ LoopRes.undefined →
      recv_loop_set os sock multicastAddr l joined h
        = ((recv_loop os sock multicastAddr l used h).1.ending,
            (recv_loop os sock multicastAddr l used h).2) := by
  intro l
  induction l with
  | nil => intro used joined h _ _; rfl
  | cons ifa rest ih =>
    intro used joined h hrep hdef
    cases hq : qualifies multicastAddr.ai_family ifa with
    | false =>
      rw [recv_loop_skip _ _ _ _ _ _ _ hq] at hdef ⊢
      rw [recv_loop_set_skip _ _ _ _ _ _ _ hq]
      exact ih _ _ _ hrep hdef
    | true =>
      obtain ⟨sa, hsa, _, _⟩ := (qualifies_iff _ _).1 hq
      rw [recv_loop_step _ _ _ _ _ _ _ sa hsa hq] at hdef ⊢
      rw [recv_loop_set_step _ _ _ _ _ _ _ sa hsa hq]
      by_cases h0 : os.if_nametoindex ifa.ifa_name = 0
      · simp [h0, LoopRes.ending]
      · simp only [h0, ↓reduceIte] at hdef ⊢
        cases hu : used[os.if_nametoindex ifa.ifa_name]? with
        | none => simp [hu] at hdef
        | some u =>
          simp only [hu] at hdef ⊢
          have hmem := hrep _ _ hu
          by_cases hne : u = 0
          · have hnm : os.if_nametoindex ifa.ifa_name ∉ joined := by
              rw [← hmem]; simp [hne]
            simp only [hne, ne_eq, not_true_eq_false, ↓reduceIte, hnm] at hdef ⊢
            by_cases hj : (join_group os sock multicastAddr sa (os.if_nametoindex ifa.ifa_name)
                (h ++ [⟨Call.if_nametoindex ifa.ifa_name,
                  os.if_nametoindex ifa.ifa_name⟩])).1 = true
            · simp [hj, LoopRes.ending]
            · simp only [hj, Bool.false_eq_true, ↓reduceIte] at hdef ⊢
              exact ih _ _ _ (table_repr_set _ _ _ hrep) hdef
          · have hm : os.if_nametoindex ifa.ifa_name ∈ joined := hmem.1 hne
            simp only [hne, ne_eq, not_false_eq_true, ↓reduceIte, hm] at hdef ⊢
            exact ih _ _ _ hrep hdef

/-- With every qualifying index inside the table, no access is out of bounds. -/
theorem recv_loop_in_bounds (os : OS) (sock : Int) (multicastAddr : Addrinfo) :
    ∀ (l : List Ifaddrs) (used : List Nat) (h : List Event),
      (∀ d ∈ l, qualifies multicastAddr.ai_family d = true →
        os.if_nametoindex d.ifa_name < used.length) →
      (recv_loop os sock multicastAddr l used h).1 ≠ LoopRes.undefined := by
  intro l
  induction l with
  | nil => intro used h _; simp [recv_loop]
  | cons ifa rest ih =>
    intro used h hin
    have hrest : ∀ (v : Nat) (d : Ifaddrs), d ∈ rest →
        qualifies multicastAddr.ai_family d = true →
        os.if_nametoindex d.ifa_name < (used.set (os.if_nametoindex ifa.ifa_name) v).length := by
      intro v d hd hqd
      rw [List.length_set]
      exact hin d (List.mem_cons_of_mem _ hd) hqd
    have hrest2 : ∀ (d : Ifaddrs), d ∈ rest →
        qualifies multicastAddr.ai_family d = true →
        os.if_nametoindex d.ifa_name < used.length :=
      fun d hd hqd => hin d (List.mem_cons_of_mem _ hd) hqd
    cases hq : qualifies multicastAddr.ai_family ifa with
    | false =>
      rw [recv_loop_skip _ _ _ _ _ _ _ hq]
      exact ih _ _ hrest2
    | true =>
      obtain ⟨sa, hsa, _, _⟩ := (qualifies_iff _ _).1 hq
      rw [recv_loop_step _ _ _ _ _ _ _ sa hsa hq]
      by_cases h0 : os.if_nametoindex ifa.ifa_name = 0
      · simp [h0]
      · simp only [h0, ↓reduceIte]
        cases hu : used[os.if_nametoindex ifa.ifa_name]? with
        | none =>
          rw [List.getElem?_eq_none_iff] at hu
          have := hin ifa (List.mem_cons_self _ _) hq
          omega
        | some u =>
          simp only []
          by_cases hne : u = 0
          · simp only [hne, ne_eq, not_true_eq_false, ↓reduceIte]
            by_cases hj : (join_group os sock multicastAddr sa (os.if_nametoindex ifa.ifa_name)
                (h ++ [⟨Call.if_nametoindex ifa.ifa_name,
                  os.if_nametoindex ifa.ifa_name⟩])).1 = true
            · simp [hj]
            · simp only [hj, Bool.false_eq_true, ↓reduceIte]
              exact ih _ _ (hrest 1)
          · simp only [hne, ne_eq, not_false_eq_true, ↓reduceIte]
            exact ih _ _ hrest2

theorem filter_isJoin_nametoindex (h : List Event) (name : String) (i : Int) :
    (h ++ [(⟨Call.if_nametoindex name, i⟩ : Event)]).filter isJoin = h.filter isJoin := by
  simp [List.filter_append, List.filter_cons, isJoin]

theorem filter_isJoin_join (h : List Event) (sock : Int) (multicastAddr : Addrinfo)
    (sa : Sockaddr) (if_index : Nat) (r : Int) :
    (h ++ [(⟨join_call sock multicastAddr sa if_index, r⟩ : Event)]).filter isJoin
      = h.filter isJoin ++ [⟨join_call sock multicastAddr sa if_index, r⟩] := by
  simp [List.filter_append, List.filter_cons, join_call_isJoin]

theorem join_plan_skip (os : OS) (fam : SaFamily) (d : Ifaddrs) (rest : List Ifaddrs)
    (seen : Finset Nat) (hq : qualifies fam d = false) :
    join_plan os fam (d :: rest) seen = join_plan os fam rest seen := by
  simp [join_plan, hq]

theorem join_plan_seen (os : OS) (fam : SaFamily) (d : Ifaddrs) (rest : List Ifaddrs)
    (seen : Finset Nat) (hq : qualifies fam d = true)
    (hm : os.if_nametoindex d.ifa_name ∈ seen) :
    join_plan os fam (d :: rest) seen = join_plan os fam rest seen := by
  simp [join_plan, hq, hm]

theorem join_plan_new (os : OS) (fam : SaFamily) (d : Ifaddrs) (rest : List Ifaddrs)
    (seen : Finset Nat) (hq : qualifies fam d = true)
    (hm : os.if_nametoindex d.ifa_name ∉ seen) :
    join_plan os fam (d :: rest) seen
      = (d, os.if_nametoindex d.ifa_name) ::
          join_plan os fam rest (insert (os.if_nametoindex d.ifa_name) seen) := by
  simp [join_plan, hq, hm]

/-- The join events of a run of the set loop follow the join plan: they are
the joins of an initial segment of the plan, and of the whole plan, all
successful, when the loop runs to its end. -/
theorem recv_loop_set_joins (os : OS) (sock : Int) (multicastAddr : Addrinfo) :
    ∀ (l : List Ifaddrs) (joined : Finset Nat) (h : List Event) (e : Ending) (h2 : List Event),
      recv_loop_set os sock multicastAddr l joined h = (e, h2) →
      ∃ J : List Event, h2.filter isJoin = h.filter isJoin ++ J ∧
        (∃ k, J.map Event.call
          = (((join_plan os multicastAddr.ai_family l joined).take k).filterMap
              (plan_event sock multicastAddr)).map Event.call) ∧
        (e = Ending.completed →
          J = (join_plan os multicastAddr.ai_family l joined).filterMap
            (plan_event sock multicastAddr)) := by
  intro l
  induction l with
  | nil =>
    intro joined h e h2 hr
    simp only [recv_loop_set, Prod.mk.injEq] at hr
    refine ⟨[], by simp [hr.2], ⟨0, by simp⟩, fun _ => by simp [join_plan]⟩
  | cons ifa rest ih =>
    intro joined h e h2 hr
    cases hq : qualifies multicastAddr.ai_family ifa with
    | false =>
      rw [recv_loop_set_skip _ _ _ _ _ _ _ hq] at hr
      rw [join_plan_skip _ _ _ _ _ hq]
      exact ih _ _ _ _ hr
    | true =>
      obtain ⟨sa, hsa, _, _⟩ := (qualifies_iff _ _).1 hq
      rw [recv_loop_set_step _ _ _ _ _ _ _ sa hsa hq] at hr
      by_cases h0 : os.if_nametoindex ifa.ifa_name = 0
      · simp only [h0, ↓reduceIte, Prod.mk.injEq] at hr
        refine ⟨[], ?_, ⟨0, by simp⟩, fun he => ?_⟩
        · rw [← hr.2, filter_isJoin_nametoindex]; simp
        · rw [← hr.1] at he; cases he
      · simp only [h0, ↓reduceIte] at hr
        by_cases hm : os.if_nametoindex ifa.ifa_name ∈ joined
        · simp only [hm, ↓reduceIte] at hr
          rw [join_plan_seen _ _ _ _ _ hq hm]
          obtain ⟨J, hJ, hk, hc⟩ := ih _ _ _ _ hr
          rw [filter_isJoin_nametoindex] at hJ
          exact ⟨J, hJ, hk, hc⟩
        · simp only [hm, ↓reduceIte] at hr
          rw [join_plan_new _ _ _ _ _ hq hm]
          by_cases hg : group_ok multicastAddr
          · rw [join_group_ok _ _ _ _ _ _ hg] at hr
            by_cases hr0 : os.respond
                (h ++ [⟨Call.if_nametoindex ifa.ifa_name, os.if_nametoindex ifa.ifa_name⟩])
                (join_call sock multicastAddr sa (os.if_nametoindex ifa.ifa_name)) = 0
            · simp only [hr0, ne_eq, not_true_eq_false, decide_False, Bool.false_eq_true,
                ↓reduceIte] at hr
              obtain ⟨J, hJ, ⟨k, hk⟩, hc⟩ := ih _ _ _ _ hr
              refine ⟨⟨join_call sock multicastAddr sa (os.if_nametoindex ifa.ifa_name), 0⟩ :: J,
                ?_, ⟨k + 1, ?_⟩, fun he => ?_⟩
              · rw [hJ, filter_isJoin_join, filter_isJoin_nametoindex]
                simp
              · simp [List.take_succ_cons, plan_event, hsa, hk]
              · simp [plan_event, hsa, hc he]
            · simp only [hr0, ne_eq, not_false_eq_true, decide_True, ↓reduceIte,
                Prod.mk.injEq] at hr
              refine ⟨[⟨join_call sock multicastAddr sa (os.if_nametoindex ifa.ifa_name),
                  os.respond
                    (h ++ [⟨Call.if_nametoindex ifa.ifa_name, os.if_nametoindex ifa.ifa_name⟩])
                    (join_call sock multicastAddr sa (os.if_nametoindex ifa.ifa_name))⟩],
                ?_, ⟨1, ?_⟩, fun he => ?_⟩
              · rw [← hr.2, filter_isJoin_join, filter_isJoin_nametoindex]
              · simp [plan_event, hsa]
              · rw [← hr.1] at he; cases he
          · rw [join_group_bad _ _ _ _ _ _ hg] at hr
            simp only [↓reduceIte, Prod.mk.injEq] at hr
            refine ⟨[], ?_, ⟨0, by simp⟩, fun he => ?_⟩
            · rw [← hr.2, filter_isJoin_nametoindex]; simp
            · rw [← hr.1] at he; cases he

theorem join_plan_not_seen (os : OS) (fam : SaFamily) :
    ∀ (l : List Ifaddrs) (seen : Finset Nat) (p : Ifaddrs × Nat),
      p ∈ join_plan os fam l seen → p.2 ∉ seen := by
  intro l
  induction l with
  | nil => intro seen p hp; simp [join_plan] at hp
  | cons d rest ih =>
    intro seen p hp
    cases hq : qualifies fam d with
    | false =>
      rw [join_plan_skip _ _ _ _ _ hq] at hp
      exact ih _ _ hp
    | true =>
      by_cases hm : os.if_nametoindex d.ifa_name ∈ seen
      · rw [join_plan_seen _ _ _ _ _ hq hm] at hp
        exact ih _ _ hp
      · rw [join_plan_new _ _ _ _ _ hq hm] at hp
        rcases List.mem_cons.1 hp with rfl | hp2
        · exact hm
        · have := ih _ _ hp2
          exact fun hc => this (Finset.mem_insert_of_mem hc)

theorem join_plan_nodup (os : OS) (fam : SaFamily) :
    ∀ (l : List Ifaddrs) (seen : Finset Nat),
      ((join_plan os fam l seen).map Prod.snd).Nodup := by
  intro l
  induction l with
  | nil => intro seen; simp [join_plan]
  | cons d rest ih =>
    intro seen
    cases hq : qualifies fam d with
    | false =>
      rw [join_plan_skip _ _ _ _ _ hq]
      exact ih _
    | true =>
      by_cases hm : os.if_nametoindex d.ifa_name ∈ seen
      · rw [join_plan_seen _ _ _ _ _ hq hm]
        exact ih _
      · rw [join_plan_new _ _ _ _ _ hq hm, List.map_cons, List.nodup_cons]
        refine ⟨?_, ih _⟩
        intro hc
        obtain ⟨p, hp, hp2⟩ := List.mem_map.1 hc
        have := join_plan_not_seen os fam _ _ p hp
        rw [hp2] at this
        exact this (Finset.mem_insert_self _ _)

theorem join_plan_first (os : OS) (fam : SaFamily) :
    ∀ (l : List Ifaddrs) (seen : Finset Nat) (p : Ifaddrs × Nat),
      p ∈ join_plan os fam l seen →
      ∃ pre post, l = pre ++ p.1 :: post ∧ qualifies fam p.1 = true ∧
        os.if_nametoindex p.1.ifa_name = p.2 ∧
        ∀ x ∈ pre, qualifies fam x = true → os.if_nametoindex x.ifa_name ≠ p.2 := by
  intro l
  induction l with
  | nil => intro seen p hp; simp [join_plan] at hp
  | cons d rest ih =>
    intro seen p hp
    cases hq : qualifies fam d with
    | false =>
      rw [join_plan_skip _ _ _ _ _ hq] at hp
      obtain ⟨pre, post, h1, h2, h3, h4⟩ := ih _ _ hp
      refine ⟨d :: pre, post, by rw [h1]; rfl, h2, h3, ?_⟩
      intro x hx hqx
      rcases List.mem_cons.1 hx with rfl | hx2
      · rw [hq] at hqx; cases hqx
      · exact h4 x hx2 hqx
    | true =>
      by_cases hm : os.if_nametoindex d.ifa_name ∈ seen
      · rw [join_plan_seen _ _ _ _ _ hq hm] at hp
        have hns := join_plan_not_seen os fam _ _ p hp
        obtain ⟨pre, post, h1, h2, h3, h4⟩ := ih _ _ hp
        refine ⟨d :: pre, post, by rw [h1]; rfl, h2, h3, ?_⟩
        intro x hx hqx
        rcases List.mem_cons.1 hx with rfl | hx2
        · intro hc; rw [hc] at hm; exact hns hm
        · exact h4 x hx2 hqx
      · rw [join_plan_new _ _ _ _ _ hq hm] at hp
        rcases List.mem_cons.1 hp with rfl | hp2
        · exact ⟨[], rest, rfl, hq, rfl, by simp⟩
        · have hns := join_plan_not_seen os fam _ _ p hp2
          obtain ⟨pre, post, h1, h2, h3, h4⟩ := ih _ _ hp2
          refine ⟨d :: pre, post, by rw [h1]; rfl, h2, h3, ?_⟩
          intro x hx hqx
          rcases List.mem_cons.1 hx with rfl | hx2
          · intro hc; rw [← hc] at hns; exact hns (Finset.mem_insert_self _ _)
          · exact h4 x hx2 hqx

theorem join_plan_cover (os : OS) (fam : SaFamily) :
    ∀ (l : List Ifaddrs) (seen : Finset Nat) (d : Ifaddrs),
      d ∈ l → qualifies fam d = true →
      os.if_nametoindex d.ifa_name ∈ seen ∨
        os.if_nametoindex d.ifa_name ∈ (join_plan os fam l seen).map Prod.snd := by
  intro l
  induction l with
  | nil => intro seen d hd; simp at hd
  | cons x rest ih =>
    intro seen d hd hqd
    cases hq : qualifies fam x with
    | false =>
      rw [join_plan_skip _ _ _ _ _ hq]
      rcases List.mem_cons.1 hd with rfl | hd2
      · rw [hq] at hqd; cases hqd
      · exact ih _ _ hd2 hqd
    | true =>
      by_cases hm : os.if_nametoindex x.ifa_name ∈ seen
      · rw [join_plan_seen _ _ _ _ _ hq hm]
        rcases List.mem_cons.1 hd with rfl | hd2
        · exact Or.inl hm
        · exact ih _ _ hd2 hqd
      · rw [join_plan_new _ _ _ _ _ hq hm]
        rcases List.mem_cons.1 hd with rfl | hd2
        · exact Or.inr (by simp)
        · rcases ih (insert (os.if_nametoindex x.ifa_name) seen) _ hd2 hqd with h1 | h1
          · rcases Finset.mem_insert.1 h1 with h2 | h2
            · exact Or.inr (by simp [h2])
            · exact Or.inl h2
          · exact Or.inr (List.mem_cons_of_mem _ h1)

/-- A set loop that runs to its end met no qualifying descriptor of index 0. -/
theorem recv_loop_set_completed_index (os : OS) (sock : Int) (multicastAddr : Addrinfo) :
    ∀ (l : List Ifaddrs) (joined : Finset Nat) (h h2 : List Event),
      recv_loop_set os sock multicastAddr l joined h = (Ending.completed, h2) →
      ∀ d ∈ l, qualifies multicastAddr.ai_family d = true → os.if_nametoindex d.ifa_name ≠ 0 := by
  intro l
  induction l with
  | nil => intro joined h h2 _ d hd; simp at hd
  | cons ifa rest ih =>
    intro joined h h2 hr d hd hqd
    cases hq : qualifies multicastAddr.ai_family ifa with
    | false =>
      rw [recv_loop_set_skip _ _ _ _ _ _ _ hq] at hr
      rcases List.mem_cons.1 hd with rfl | hd2
      · rw [hq] at hqd; cases hqd
      · exact ih _ _ _ hr d hd2 hqd
    | true =>
      obtain ⟨sa, hsa, _, _⟩ := (qualifies_iff _ _).1 hq
      rw [recv_loop_set_step _ _ _ _ _ _ _ sa hsa hq] at hr
      by_cases h0 : os.if_nametoindex ifa.ifa_name = 0
      · simp [h0] at hr
      · simp only [h0, ↓reduceIte] at hr
        rcases List.mem_cons.1 hd with rfl | hd2
        · exact h0
        · by_cases hm : os.if_nametoindex ifa.ifa_name ∈ joined
          · simp only [hm, ↓reduceIte] at hr
            exact ih _ _ _ hr d hd2 hqd
          · simp only [hm, ↓reduceIte] at hr
            by_cases hj : (join_group os sock multicastAddr sa (os.if_nametoindex ifa.ifa_name)
                (h ++ [⟨Call.if_nametoindex ifa.ifa_name,
                  os.if_nametoindex ifa.ifa_name⟩])).1 = true
            · simp [hj] at hr
            · simp only [hj, Bool.false_eq_true, ↓reduceIte] at hr
              exact ih _ _ _ hr d hd2 hqd

theorem join_call_not_fd (sock : Int) (multicastAddr : Addrinfo) (sa : Sockaddr)
    (if_index : Nat) (r : Int) :
    isFdEvent ⟨join_call sock multicastAddr sa if_index, r⟩ = false := by
  unfold join_call
  split <;> rfl

theorem join_group_fd (os : OS) (sock : Int) (multicastAddr : Addrinfo) (sa : Sockaddr)
    (if_index : Nat) (h : List Event) :
    (join_group os sock multicastAddr sa if_index h).2.filter isFdEvent
      = h.filter isFdEvent := by
  by_cases hg : group_ok multicastAddr
  · rw [join_group_ok _ _ _ _ _ _ hg]
    simp [List.filter_append, List.filter_cons, join_call_not_fd]
  · rw [join_group_bad _ _ _ _ _ _ hg]

theorem release_fd (localAddr multicastAddr : Option Addrinfo) (ifaddr : List Ifaddrs)
    (h : List Event) :
    (release localAddr multicastAddr ifaddr h).filter isFdEvent = h.filter isFdEvent := by
  unfold release sysVoid
  cases localAddr <;> cases multicastAddr <;> by_cases hi : ifaddr = [] <;>
    simp [hi, List.filter_append, List.filter_cons, isFdEvent]

theorem release_join (localAddr multicastAddr : Option Addrinfo) (ifaddr : List Ifaddrs)
    (h : List Event) :
    (release localAddr multicastAddr ifaddr h).filter isJoin = h.filter isJoin := by
  unfold release sysVoid
  cases localAddr <;> cases multicastAddr <;> by_cases hi : ifaddr = [] <;>
    simp [hi, List.filter_append, List.filter_cons, isJoin]

theorem release_extends (localAddr multicastAddr : Option Addrinfo) (ifaddr : List Ifaddrs)
    (h : List Event) :
    ∃ t, release localAddr multicastAddr ifaddr h = h ++ t := by
  unfold release sysVoid
  cases localAddr <;> cases multicastAddr <;> by_cases hi : ifaddr = [] <;>
    simp [hi]

theorem recv_loop_fd (os : OS) (sock : Int) (multicastAddr : Addrinfo) :
    ∀ (l : List Ifaddrs) (used : List Nat) (h : List Event),
      (recv_loop os sock multicastAddr l used h).2.filter isFdEvent = h.filter isFdEvent := by
  intro l
  induction l with
  | nil => intro used h; rfl
  | cons ifa rest ih =>
    intro used h
    have hn : ∀ h0 : List Event,
        (h0 ++ [(⟨Call.if_nametoindex ifa.ifa_name, os.if_nametoindex ifa.ifa_name⟩ : Event)]).filter
          isFdEvent = h0.filter isFdEvent := by
      intro h0; simp [List.filter_append, List.filter_cons, isFdEvent]
    cases hq : qualifies multicastAddr.ai_family ifa with
    | false =>
      rw [recv_loop_skip _ _ _ _ _ _ _ hq]
      exact ih _ _
    | true =>
      obtain ⟨sa, hsa, _, _⟩ := (qualifies_iff _ _).1 hq
      rw [recv_loop_step _ _ _ _ _ _ _ sa hsa hq]
      by_cases h0 : os.if_nametoindex ifa.ifa_name = 0
      · simp only [h0, ↓reduceIte]
        rw [← h0]; exact hn h
      · simp only [h0, ↓reduceIte]
        cases hu : used[os.if_nametoindex ifa.ifa_name]? with
        | none => exact hn h
        | some u =>
          simp only []
          by_cases hne : u = 0
          · simp only [hne, ne_eq, not_true_eq_false, ↓reduceIte]
            by_cases hj : (join_group os sock multicastAddr sa (os.if_nametoindex ifa.ifa_name)
                (h ++ [⟨Call.if_nametoindex ifa.ifa_name,
                  os.if_nametoindex ifa.ifa_name⟩])).1 = true
            · simp only [hj, ↓reduceIte]
              rw [join_group_fd, hn]
            · simp only [hj, Bool.false_eq_true, ↓reduceIte]
              rw [ih, join_group_fd, hn]
          · simp only [hne, ne_eq, not_false_eq_true, ↓reduceIte]
            rw [ih, hn]

theorem recv_loop_extends (os : OS) (sock : Int) (multicastAddr : Addrinfo) :
    ∀ (l : List Ifaddrs) (used : List Nat) (h : List Event),
      ∃ t, (recv_loop os sock multicastAddr l used h).2 = h ++ t := by
  intro l
  induction l with
  | nil => intro used h; exact ⟨[], by simp [recv_loop]⟩
  | cons ifa rest ih =>
    intro used h
    cases hq : qualifies multicastAddr.ai_family ifa with
    | false =>
      rw [recv_loop_skip _ _ _ _ _ _ _ hq]
      exact ih _ _
    | true =>
      obtain ⟨sa, hsa, _, _⟩ := (qualifies_iff _ _).1 hq
      rw [recv_loop_step _ _ _ _ _ _ _ sa hsa hq]
      have hjg : ∃ t, (join_group os sock multicastAddr sa (os.if_nametoindex ifa.ifa_name)
          (h ++ [⟨Call.if_nametoindex ifa.ifa_name, os.if_nametoindex ifa.ifa_name⟩])).2
            = h ++ t := by
        by_cases hg : group_ok multicastAddr
        · rw [join_group_ok _ _ _ _ _ _ hg]
          exact ⟨_, List.append_assoc _ _ _⟩
        · rw [join_group_bad _ _ _ _ _ _ hg]
          exact ⟨_, rfl⟩
      by_cases h0 : os.if_nametoindex ifa.ifa_name = 0
      · simp only [h0, ↓reduceIte]
        exact ⟨_, rfl⟩
      · simp only [h0, ↓reduceIte]
        cases hu : used[os.if_nametoindex ifa.ifa_name]? with
        | none => exact ⟨_, rfl⟩
        | some u =>
          simp only []
          by_cases hne : u = 0
          · simp only [hne, ne_eq, not_true_eq_false, ↓reduceIte]
            by_cases hj : (join_group os sock multicastAddr sa (os.if_nametoindex ifa.ifa_name)
                (h ++ [⟨Call.if_nametoindex ifa.ifa_name,
                  os.if_nametoindex ifa.ifa_name⟩])).1 = true
            · simp only [hj, ↓reduceIte]
              exact hjg
            · simp only [hj, Bool.false_eq_true, ↓reduceIte]
              obtain ⟨t1, ht1⟩ := hjg
              obtain ⟨t2, ht2⟩ := ih (used.set (os.if_nametoindex ifa.ifa_name) 1)
                (join_group os sock multicastAddr sa (os.if_nametoindex ifa.ifa_name)
                  (h ++ [⟨Call.if_nametoindex ifa.ifa_name,
                    os.if_nametoindex ifa.ifa_name⟩])).2
              rw [ht2, ht1]
              exact ⟨_, List.append_assoc _ _ _⟩
          · simp only [hne, ne_eq, not_false_eq_true, ↓reduceIte]
            obtain ⟨t2, ht2⟩ := ih used
              (h ++ [⟨Call.if_nametoindex ifa.ifa_name, os.if_nametoindex ifa.ifa_name⟩])
            rw [ht2]
            exact ⟨_, List.append_assoc _ _ _⟩

/-- What is known when `recv_setup` reaches the interface loop. -/
theorem recv_setup_ok (os : OS) (multicastIP multicastPort : String)
    (multicastRecvBufSize : Int) (st : RecvState)
    (hs : recv_setup os multicastIP multicastPort multicastRecvBufSize = Except.ok st) :
    0 ≤ st.sock ∧ os.getifaddrs = some st.ifaddr ∧
    os.getaddrinfo (some multicastIP) none ⟨SaFamily.AF_UNSPEC, 0, AI_NUMERICHOST⟩
      = Except.ok st.multicastAddr ∧
    st.trace.filter isJoin = [] ∧
    st.trace.filter isFdEvent
      = [⟨Call.socket st.localAddr.ai_family st.localAddr.ai_socktype 0, st.sock⟩] := by
  unfold recv_setup at hs
  cases hg1 : os.getaddrinfo (some multicastIP) none ⟨SaFamily.AF_UNSPEC, 0, AI_NUMERICHOST⟩ with
  | error e => simp [hg1] at hs
  | ok ma =>
    simp only [hg1] at hs
    cases hg2 : os.getaddrinfo none (some multicastPort) ⟨ma.ai_family, SOCK_DGRAM, AI_PASSIVE⟩ with
    | error e => simp [hg2] at hs
    | ok la =>
      simp only [hg2, sys] at hs
      split at hs
      · cases hs
      rename_i h1
      split at hs
      · cases hs
      split at hs
      · cases hs
      split at hs
      · cases hs
      split at hs
      · cases hs
      split at hs
      · cases hs
      cases hi : os.getifaddrs with
      | none => simp [hi] at hs
      | some ifs =>
        simp only [hi, Except.ok.injEq] at hs
        subst hs
        refine ⟨by simpa using h1, rfl, rfl, ?_, ?_⟩
        · simp [List.filter_append, List.filter_cons, isJoin]
        · simp [List.filter_append, List.filter_cons, isFdEvent]

theorem mcast_recv_socket_unfold (os : OS) (MAX_IF_INDEX : Nat)
    (multicastIP multicastPort : String) (multicastRecvBufSize : Int) (st : RecvState)
    (hs : recv_setup os multicastIP multicastPort multicastRecvBufSize = Except.ok st) :
    mcast_recv_socket os MAX_IF_INDEX multicastIP multicastPort multicastRecvBufSize
      = match recv_loop os st.sock st.multicastAddr st.ifaddr
            (List.replicate (MAX_IF_INDEX + 1) 0) st.trace with
        | (LoopRes.completed _, h) =>
          (Outcome.ret st.sock,
            release (some st.localAddr) (some st.multicastAddr) st.ifaddr h)
        | (LoopRes.error, h) =>
          (Outcome.ret (-1), release (some st.localAddr) (some st.multicastAddr) st.ifaddr h)
        | (LoopRes.undefined, h) => (Outcome.undefined, h) := by
  unfold mcast_recv_socket
  simp only [hs]

theorem mcast_recv_socket_joins (os : OS) (MAX_IF_INDEX : Nat)
    (multicastIP multicastPort : String) (multicastRecvBufSize : Int) (st : RecvState)
    (hs : recv_setup os multicastIP multicastPort multicastRecvBufSize = Except.ok st) :
    (mcast_recv_socket os MAX_IF_INDEX multicastIP multicastPort multicastRecvBufSize).2.filter
        isJoin
      = (recv_loop os st.sock st.multicastAddr st.ifaddr
          (List.replicate (MAX_IF_INDEX + 1) 0) st.trace).2.filter isJoin := by
  rw [mcast_recv_socket_unfold _ _ _ _ _ st hs]
  rcases hx : recv_loop os st.sock st.multicastAddr st.ifaddr
      (List.replicate (MAX_IF_INDEX + 1) 0) st.trace with ⟨res, h⟩
  cases res <;> simp [release_join]

theorem mcast_recv_socket_success (os : OS) (MAX_IF_INDEX : Nat)
    (multicastIP multicastPort : String) (multicastRecvBufSize : Int) (st : RecvState)
    (hs : recv_setup os multicastIP multicastPort multicastRecvBufSize = Except.ok st)
    (v : Int)
    (hv : (mcast_recv_socket os MAX_IF_INDEX multicastIP multicastPort
      multicastRecvBufSize).1 = Outcome.ret v) (hne : v ≠ -1) :
    v = st.sock ∧
    (recv_loop os st.sock st.multicastAddr st.ifaddr
      (List.replicate (MAX_IF_INDEX + 1) 0) st.trace).1.ending = Ending.completed := by
  rw [mcast_recv_socket_unfold _ _ _ _ _ st hs] at hv
  rcases hx : recv_loop os st.sock st.multicastAddr st.ifaddr
      (List.replicate (MAX_IF_INDEX + 1) 0) st.trace with ⟨res, h⟩
  rw [hx] at hv
  cases res with
  | completed u =>
    simp only [Outcome.ret.injEq] at hv
    exact ⟨hv.symm, rfl⟩
  | error =>
    simp only [Outcome.ret.injEq] at hv
    exact absurd hv.symm hne
  | undefined => simp at hv

/-- C10: for an interface list whose qualifying descriptors all have an index
in `1..MAX_IF_INDEX`, the join loop over the zeroed table `if_index_used` never
leaves the bounds of the table and ends as, and issues the same calls as, the
loop over an initially empty set of joined indices; and a qualifying
descriptor whose index exceeds `MAX_IF_INDEX` (no test excludes it) makes the
loop index the table out of bounds. -/
theorem if_index_used_refines_set (os : OS) (sock : Int) (multicastAddr : Addrinfo)
    (MAX_IF_INDEX : Nat) (l : List Ifaddrs) (h : List Event)
    (hrange : ∀ d ∈ l, qualifies multicastAddr.ai_family d = true →
      1 ≤ os.if_nametoindex d.ifa_name ∧ os.if_nametoindex d.ifa_name ≤ MAX_IF_INDEX) :
    (recv_loop os sock multicastAddr l (List.replicate (MAX_IF_INDEX + 1) 0) h).1
      ≠ LoopRes.undefined ∧
    recv_loop_set os sock multicastAddr l ∅ h
      = ((recv_loop os sock multicastAddr l (List.replicate (MAX_IF_INDEX + 1) 0) h).1.ending,
         (recv_loop os sock multicastAddr l (List.replicate (MAX_IF_INDEX + 1) 0) h).2) ∧
    (recv_loop os sock multicastAddr l (List.replicate (MAX_IF_INDEX + 1) 0) h).2.filter isJoin
      = (recv_loop_set os sock multicastAddr l ∅ h).2.filter isJoin ∧
    (∀ (d : Ifaddrs) (rest : List Ifaddrs) (h0 : List Event),
      qualifies multicastAddr.ai_family d = true →
      MAX_IF_INDEX < os.if_nametoindex d.ifa_name →
      (recv_loop os sock multicastAddr (d :: rest) (List.replicate (MAX_IF_INDEX + 1) 0) h0).1
        = LoopRes.undefined) := by
  have hb := recv_loop_in_bounds os sock multicastAddr l (List.replicate (MAX_IF_INDEX + 1) 0) h
    (by
      intro d hd hq
      have := (hrange d hd hq).2
      simp only [List.length_replicate]
      omega)
  have hr := recv_loop_refines os sock multicastAddr l _ ∅ h (table_repr_zero _) hb
  refine ⟨hb, hr, by rw [hr], ?_⟩
  intro d rest h0 hq hbig
  obtain ⟨sa, hsa, _, _⟩ := (qualifies_iff _ _).1 hq
  rw [recv_loop_step _ _ _ _ _ _ _ sa hsa hq]
  have h0' : os.if_nametoindex d.ifa_name ≠ 0 := by omega
  have hnone : (List.replicate (MAX_IF_INDEX + 1) 0)[os.if_nametoindex d.ifa_name]? = none := by
    rw [List.getElem?_eq_none_iff, List.length_replicate]; omega
  simp only [h0', ↓reduceIte, hnone]

/-- Witness for C10: two addresses of `eth0` (index 2) and one of `eth1`
(index 3) with `MAX_IF_INDEX = 4`. -/
theorem if_index_used_refines_set_witness :
    (recv_loop (demo_os group_v4 16 []) 3 ⟨SaFamily.AF_INET, 0, 16, group_v4⟩
        [eth0_v4, eth0_v4b, eth1_v4] (List.replicate (4 + 1) 0) []).1 ≠ LoopRes.undefined ∧
    recv_loop_set (demo_os group_v4 16 []) 3 ⟨SaFamily.AF_INET, 0, 16, group_v4⟩
        [eth0_v4, eth0_v4b, eth1_v4] ∅ []
      = ((recv_loop (demo_os group_v4 16 []) 3 ⟨SaFamily.AF_INET, 0, 16, group_v4⟩
            [eth0_v4, eth0_v4b, eth1_v4] (List.replicate (4 + 1) 0) []).1.ending,
         (recv_loop (demo_os group_v4 16 []) 3 ⟨SaFamily.AF_INET, 0, 16, group_v4⟩
            [eth0_v4, eth0_v4b, eth1_v4] (List.replicate (4 + 1) 0) []).2) ∧
    (recv_loop (demo_os group_v4 16 []) 3 ⟨SaFamily.AF_INET, 0, 16, group_v4⟩
        [eth0_v4, eth0_v4b, eth1_v4] (List.replicate (4 + 1) 0) []).2.filter isJoin
      = (recv_loop_set (demo_os group_v4 16 []) 3 ⟨SaFamily.AF_INET, 0, 16, group_v4⟩
        [eth0_v4, eth0_v4b, eth1_v4] ∅ []).2.filter isJoin ∧
    (∀ (d : Ifaddrs) (rest : List Ifaddrs) (h0 : List Event),
      qualifies SaFamily.AF_INET d = true →
      4 < (demo_os group_v4 16 []).if_nametoindex d.ifa_name →
      (recv_loop (demo_os group_v4 16 []) 3 ⟨SaFamily.AF_INET, 0, 16, group_v4⟩ (d :: rest)
        (List.replicate (4 + 1) 0) h0).1 = LoopRes.undefined) :=
  if_index_used_refines_set (demo_os group_v4 16 []) 3 ⟨SaFamily.AF_INET, 0, 16, group_v4⟩ 4
    [eth0_v4, eth0_v4b, eth1_v4] [] (by decide)

/-- C2: with every qualifying index in `1..MAX_IF_INDEX`, the group joins of
one call of `mcast_recv_socket` follow the join plan of the interface list.
The plan holds, for every interface index of a qualifying descriptor, exactly
one entry, and that entry is the first qualifying descriptor with this index
in enumeration order.  The joins issued are those of an initial segment of the
plan (so never two for one index), and of the whole plan, each successful,
when the call returns the socket. -/
theorem mcast_recv_socket_one_join_per_index (os : OS) (MAX_IF_INDEX : Nat)
    (multicastIP multicastPort : String) (multicastRecvBufSize : Int) (st : RecvState)
    (hs : recv_setup os multicastIP multicastPort multicastRecvBufSize = Except.ok st)
    (hrange : ∀ d ∈ st.ifaddr, qualifies st.multicastAddr.ai_family d = true →
      1 ≤ os.if_nametoindex d.ifa_name ∧ os.if_nametoindex d.ifa_name ≤ MAX_IF_INDEX) :
    ((join_plan os st.multicastAddr.ai_family st.ifaddr ∅).map Prod.snd).Nodup ∧
    (∀ p ∈ join_plan os st.multicastAddr.ai_family st.ifaddr ∅,
      ∃ pre post, st.ifaddr = pre ++ p.1 :: post ∧
        qualifies st.multicastAddr.ai_family p.1 = true ∧
        os.if_nametoindex p.1.ifa_name = p.2 ∧
        ∀ x ∈ pre, qualifies st.multicastAddr.ai_family x = true →
          os.if_nametoindex x.ifa_name ≠ p.2) ∧
    (∀ d ∈ st.ifaddr, qualifies st.multicastAddr.ai_family d = true →
      List.count (os.if_nametoindex d.ifa_name)
        ((join_plan os st.multicastAddr.ai_family st.ifaddr ∅).map Prod.snd) = 1) ∧
    (∃ k, ((mcast_recv_socket os MAX_IF_INDEX multicastIP multicastPort
          multicastRecvBufSize).2.filter isJoin).map Event.call
        = (((join_plan os st.multicastAddr.ai_family st.ifaddr ∅).take k).filterMap
            (plan_event st.sock st.multicastAddr)).map Event.call) ∧
    (∀ v, (mcast_recv_socket os MAX_IF_INDEX multicastIP multicastPort
          multicastRecvBufSize).1 = Outcome.ret v → v ≠ -1 →
      (mcast_recv_socket os MAX_IF_INDEX multicastIP multicastPort
          multicastRecvBufSize).2.filter isJoin
        = (join_plan os st.multicastAddr.ai_family st.ifaddr ∅).filterMap
            (plan_event st.sock st.multicastAddr)) := by
  have hb := recv_loop_in_bounds os st.sock st.multicastAddr st.ifaddr
    (List.replicate (MAX_IF_INDEX + 1) 0) st.trace
    (by
      intro d hd hq
      have := (hrange d hd hq).2
      simp only [List.length_replicate]
      omega)
  have hr := recv_loop_refines os st.sock st.multicastAddr st.ifaddr _ ∅ st.trace
    (table_repr_zero _) hb
  obtain ⟨J, hJ, hk, hc⟩ := recv_loop_set_joins os st.sock st.multicastAddr st.ifaddr ∅
    st.trace _ _ hr
  rw [(recv_setup_ok _ _ _ _ _ hs).2.2.2.1, List.nil_append] at hJ
  have hnd := join_plan_nodup os st.multicastAddr.ai_family st.ifaddr ∅
  refine ⟨hnd, fun p hp => join_plan_first os _ _ _ p hp, ?_, ?_, ?_⟩
  · intro d hd hq
    rcases join_plan_cover os _ _ ∅ d hd hq with h1 | h1
    · simp at h1
    · exact List.count_eq_one_of_mem hnd h1
  · rw [mcast_recv_socket_joins _ _ _ _ _ st hs, hJ]
    exact hk
  · intro v hv hne
    rw [mcast_recv_socket_joins _ _ _ _ _ st hs, hJ]
    exact hc (mcast_recv_socket_success _ _ _ _ _ st hs v hv hne).2

theorem join_group_joins_bad (os : OS) (sock : Int) (multicastAddr : Addrinfo)
    (hg : ¬ group_ok multicastAddr) :
    ∀ (l : List Ifaddrs) (used : List Nat) (h : List Event),
      (recv_loop os sock multicastAddr l used h).2.filter isJoin = h.filter isJoin := by
  intro l
  induction l with
  | nil => intro used h; rfl
  | cons ifa rest ih =>
    intro used h
    cases hq : qualifies multicastAddr.ai_family ifa with
    | false =>
      rw [recv_loop_skip _ _ _ _ _ _ _ hq]
      exact ih _ _
    | true =>
      obtain ⟨sa, hsa, _, _⟩ := (qualifies_iff _ _).1 hq
      rw [recv_loop_step _ _ _ _ _ _ _ sa hsa hq]
      simp only [join_group_bad _ _ _ _ _ _ hg, ↓reduceIte]
      by_cases h0 : os.if_nametoindex ifa.ifa_name = 0
      · simp only [h0, ↓reduceIte]
        rw [← h0]; exact filter_isJoin_nametoindex _ _ _
      · simp only [h0, ↓reduceIte]
        cases hu : used[os.if_nametoindex ifa.ifa_name]? with
        | none => exact filter_isJoin_nametoindex _ _ _
        | some u =>
          simp only []
          by_cases hne : u = 0
          · simp only [hne, ne_eq, not_true_eq_false, ↓reduceIte]
            exact filter_isJoin_nametoindex _ _ _
          · simp only [hne, ne_eq, not_false_eq_true, ↓reduceIte]
            rw [ih]; exact filter_isJoin_nametoindex _ _ _

/-- The run of `mcast_recv_socket` from a descriptor `d` that the loop reaches
with table `used1` and trace `h1`. -/
theorem mcast_recv_socket_reach (os : OS) (MAX_IF_INDEX : Nat)
    (multicastIP multicastPort : String) (multicastRecvBufSize : Int) (st : RecvState)
    (pre post : List Ifaddrs) (d : Ifaddrs) (used1 : List Nat) (h1 : List Event)
    (hs : recv_setup os multicastIP multicastPort multicastRecvBufSize = Except.ok st)
    (hl : st.ifaddr = pre ++ d :: post)
    (hpre : recv_loop os st.sock st.multicastAddr pre (List.replicate (MAX_IF_INDEX + 1) 0)
      st.trace = (LoopRes.completed used1, h1)) :
    mcast_recv_socket os MAX_IF_INDEX multicastIP multicastPort multicastRecvBufSize
      = match recv_loop os st.sock st.multicastAddr (d :: post) used1 h1 with
        | (LoopRes.completed _, h) =>
          (Outcome.ret st.sock,
            release (some st.localAddr) (some st.multicastAddr) st.ifaddr h)
        | (LoopRes.error, h) =>
          (Outcome.ret (-1), release (some st.localAddr) (some st.multicastAddr) st.ifaddr h)
        | (LoopRes.undefined, h) => (Outcome.undefined, h) := by
  rw [mcast_recv_socket_unfold _ _ _ _ _ st hs]
  have := recv_loop_append os st.sock st.multicastAddr (d :: post) pre _ _ _ _ hpre
  rw [← hl] at this
  rw [this]

/-- C8: when the loop of `mcast_recv_socket` reaches a qualifying descriptor
`d` whose index `i` is non-zero and not yet marked in `if_index_used` (the
point where a join is due), then: for a well-formed IPv4 group the next call
is `IP_ADD_MEMBERSHIP` at `IPPROTO_IP` with the request (group address,
address of `d`); for a well-formed IPv6 group it is `IPV6_ADD_MEMBERSHIP` at
`IPPROTO_IPV6` with the request (group address, `i`); and for a group that is
neither, the call returns -1 right after the index lookup and its trace holds
no join at all. -/
theorem mcast_recv_socket_join_request (os : OS) (MAX_IF_INDEX : Nat)
    (multicastIP multicastPort : String) (multicastRecvBufSize : Int) (st : RecvState)
    (pre post : List Ifaddrs) (d : Ifaddrs) (sa : Sockaddr) (used1 : List Nat) (h1 : List Event)
    (hs : recv_setup os multicastIP multicastPort multicastRecvBufSize = Except.ok st)
    (hl : st.ifaddr = pre ++ d :: post)
    (hsa : d.ifa_addr = some sa)
    (hq : qualifies st.multicastAddr.ai_family d = true)
    (hpre : recv_loop os st.sock st.multicastAddr pre (List.replicate (MAX_IF_INDEX + 1) 0)
      st.trace = (LoopRes.completed used1, h1))
    (hidx : os.if_nametoindex d.ifa_name ≠ 0)
    (hnew : used1[os.if_nametoindex d.ifa_name]? = some 0) :
    (st.multicastAddr.ai_family = SaFamily.AF_INET ∧
        st.multicastAddr.ai_addrlen = sizeof_sockaddr_in →
      ∃ t, (mcast_recv_socket os MAX_IF_INDEX multicastIP multicastPort
          multicastRecvBufSize).2
        = h1 ++ [⟨Call.if_nametoindex d.ifa_name, os.if_nametoindex d.ifa_name⟩,
            ⟨Call.setsockopt st.sock Level.IPPROTO_IP OptName.IP_ADD_MEMBERSHIP
                (OptVal.ip_mreq st.multicastAddr.ai_addr.addr sa.addr) sizeof_ip_mreq,
              os.respond
                (h1 ++ [⟨Call.if_nametoindex d.ifa_name, os.if_nametoindex d.ifa_name⟩])
                (Call.setsockopt st.sock Level.IPPROTO_IP OptName.IP_ADD_MEMBERSHIP
                  (OptVal.ip_mreq st.multicastAddr.ai_addr.addr sa.addr) sizeof_ip_mreq)⟩]
          ++ t) ∧
    (st.multicastAddr.ai_family = SaFamily.AF_INET6 ∧
        st.multicastAddr.ai_addrlen = sizeof_sockaddr_in6 →
      ∃ t, (mcast_recv_socket os MAX_IF_INDEX multicastIP multicastPort
          multicastRecvBufSize).2
        = h1 ++ [⟨Call.if_nametoindex d.ifa_name, os.if_nametoindex d.ifa_name⟩,
            ⟨Call.setsockopt st.sock Level.IPPROTO_IPV6 OptName.IPV6_ADD_MEMBERSHIP
                (OptVal.ipv6_mreq st.multicastAddr.ai_addr.addr
                  (os.if_nametoindex d.ifa_name)) sizeof_ipv6_mreq,
              os.respond
                (h1 ++ [⟨Call.if_nametoindex d.ifa_name, os.if_nametoindex d.ifa_name⟩])
                (Call.setsockopt st.sock Level.IPPROTO_IPV6 OptName.IPV6_ADD_MEMBERSHIP
                  (OptVal.ipv6_mreq st.multicastAddr.ai_addr.addr
                    (os.if_nametoindex d.ifa_name)) sizeof_ipv6_mreq)⟩]
          ++ t) ∧
    (¬ group_ok st.multicastAddr →
      mcast_recv_socket os MAX_IF_INDEX multicastIP multicastPort multicastRecvBufSize
        = (Outcome.ret (-1),
            release (some st.localAddr) (some st.multicastAddr) st.ifaddr
              (h1 ++ [⟨Call.if_nametoindex d.ifa_name, os.if_nametoindex d.ifa_name⟩])) ∧
      (mcast_recv_socket os MAX_IF_INDEX multicastIP multicastPort
          multicastRecvBufSize).2.filter isJoin = []) := by
  have hreach := mcast_recv_socket_reach os MAX_IF_INDEX multicastIP multicastPort
    multicastRecvBufSize st pre post d used1 h1 hs hl hpre
  rw [recv_loop_step _ _ _ _ _ _ _ sa hsa hq] at hreach
  simp only [hidx, ↓reduceIte, hnew, ne_eq, not_true_eq_false] at hreach
  -- the trace continues the one of the join
  have hcont : ∀ (c : Call), group_ok st.multicastAddr →
      join_call st.sock st.multicastAddr sa (os.if_nametoindex d.ifa_name) = c →
      ∃ t, (mcast_recv_socket os MAX_IF_INDEX multicastIP multicastPort
          multicastRecvBufSize).2
        = h1 ++ [⟨Call.if_nametoindex d.ifa_name, os.if_nametoindex d.ifa_name⟩,
            ⟨c, os.respond
                (h1 ++ [⟨Call.if_nametoindex d.ifa_name, os.if_nametoindex d.ifa_name⟩]) c⟩]
          ++ t := by
    intro c hg hc
    rw [join_group_ok _ _ _ _ _ _ hg, hc] at hreach
    rw [hreach]
    by_cases hr0 : os.respond
        (h1 ++ [⟨Call.if_nametoindex d.ifa_name, os.if_nametoindex d.ifa_name⟩]) c = 0
    · simp only [hr0, ne_eq, not_true_eq_false, decide_False, Bool.false_eq_true, ↓reduceIte]
      obtain ⟨t1, ht1⟩ := recv_loop_extends os st.sock st.multicastAddr post
        (used1.set (os.if_nametoindex d.ifa_name) 1)
        (h1 ++ [⟨Call.if_nametoindex d.ifa_name, os.if_nametoindex d.ifa_name⟩] ++ [⟨c, 0⟩])
      rcases hx : recv_loop os st.sock st.multicastAddr post
        (used1.set (os.if_nametoindex d.ifa_name) 1)
        (h1 ++ [⟨Call.if_nametoindex d.ifa_name, os.if_nametoindex d.ifa_name⟩] ++ [⟨c, 0⟩])
        with ⟨res, h2⟩
      rw [hx] at ht1 ⊢
      simp only at ht1
      cases res with
      | completed u =>
        obtain ⟨t2, ht2⟩ := release_extends (some st.localAddr) (some st.multicastAddr)
          st.ifaddr h2
        refine ⟨t1 ++ t2, ?_⟩
        show release (some st.localAddr) (some st.multicastAddr) st.ifaddr h2 = _
        rw [ht2, ht1]
        simp only [List.append_assoc, List.singleton_append, List.cons_append,
          List.nil_append]
      | error =>
        obtain ⟨t2, ht2⟩ := release_extends (some st.localAddr) (some st.multicastAddr)
          st.ifaddr h2
        refine ⟨t1 ++ t2, ?_⟩
        show release (some st.localAddr) (some st.multicastAddr) st.ifaddr h2 = _
        rw [ht2, ht1]
        simp only [List.append_assoc, List.singleton_append, List.cons_append,
          List.nil_append]
      | undefined =>
        refine ⟨t1, ?_⟩
        show h2 = _
        rw [ht1]
        simp only [List.append_assoc, List.singleton_append, List.cons_append,
          List.nil_append]
    · simp only [hr0, ne_eq, not_false_eq_true, decide_True, ↓reduceIte]
      obtain ⟨t2, ht2⟩ := release_extends (some st.localAddr) (some st.multicastAddr)
        st.ifaddr (h1 ++ [⟨Call.if_nametoindex d.ifa_name, os.if_nametoindex d.ifa_name⟩] ++
          [⟨c, os.respond
            (h1 ++ [⟨Call.if_nametoindex d.ifa_name, os.if_nametoindex d.ifa_name⟩]) c⟩])
      refine ⟨t2, ?_⟩
      show release (some st.localAddr) (some st.multicastAddr) st.ifaddr _ = _
      rw [ht2]
      simp only [List.append_assoc, List.singleton_append, List.cons_append,
        List.nil_append]
  refine ⟨fun h4 => hcont _ (Or.inl h4) ?_, fun h6 => hcont _ (Or.inr h6) ?_, fun hbad => ?_⟩
  · simp [join_call, h4.1]
  · simp [join_call, h6.1]
  · have hev : mcast_recv_socket os MAX_IF_INDEX multicastIP multicastPort multicastRecvBufSize
        = (Outcome.ret (-1),
            release (some st.localAddr) (some st.multicastAddr) st.ifaddr
              (h1 ++ [⟨Call.if_nametoindex d.ifa_name, os.if_nametoindex d.ifa_name⟩])) := by
      rw [hreach, join_group_bad _ _ _ _ _ _ hbad]
      simp only [↓reduceIte]
    refine ⟨hev, ?_⟩
    rw [mcast_recv_socket_joins _ _ _ _ _ st hs, join_group_joins_bad os _ _ hbad]
    exact (recv_setup_ok _ _ _ _ _ hs).2.2.2.1

/-- When `mcast_recv_socket` returns a value other than -1, its join events
are exactly the successful joins of the join plan. -/
theorem mcast_recv_socket_success_joins (os : OS) (MAX_IF_INDEX : Nat)
    (multicastIP multicastPort : String) (multicastRecvBufSize : Int) (st : RecvState)
    (hs : recv_setup os multicastIP multicastPort multicastRecvBufSize = Except.ok st)
    (v : Int)
    (hv : (mcast_recv_socket os MAX_IF_INDEX multicastIP multicastPort
      multicastRecvBufSize).1 = Outcome.ret v) (hne : v ≠ -1) :
    recv_loop_set os st.sock st.multicastAddr st.ifaddr ∅ st.trace
      = (Ending.completed, (recv_loop os st.sock st.multicastAddr st.ifaddr
          (List.replicate (MAX_IF_INDEX + 1) 0) st.trace).2) ∧
    (mcast_recv_socket os MAX_IF_INDEX multicastIP multicastPort
        multicastRecvBufSize).2.filter isJoin
      = (join_plan os st.multicastAddr.ai_family st.ifaddr ∅).filterMap
          (plan_event st.sock st.multicastAddr) := by
  obtain ⟨_, hend⟩ := mcast_recv_socket_success _ _ _ _ _ st hs v hv hne
  have hdef : (recv_loop os st.sock st.multicastAddr st.ifaddr
      (List.replicate (MAX_IF_INDEX + 1) 0) st.trace).1 ≠ LoopRes.undefined := by
    intro hc; rw [hc] at hend; cases hend
  have hr := recv_loop_refines os st.sock st.multicastAddr st.ifaddr _ ∅ st.trace
    (table_repr_zero _) hdef
  rw [hend] at hr
  obtain ⟨J, hJ, _, hc⟩ := recv_loop_set_joins os st.sock st.multicastAddr st.ifaddr ∅
    st.trace _ _ hr
  rw [(recv_setup_ok _ _ _ _ _ hs).2.2.2.1, List.nil_append, hc rfl,
    ← mcast_recv_socket_joins _ _ _ _ _ st hs] at hJ
  exact ⟨hr, hJ⟩

/-- With every qualifying index inside the table, `mcast_recv_socket` returns
a value. -/
theorem mcast_recv_socket_returns (os : OS) (MAX_IF_INDEX : Nat)
    (multicastIP multicastPort : String) (multicastRecvBufSize : Int) (st : RecvState)
    (hs : recv_setup os multicastIP multicastPort multicastRecvBufSize = Except.ok st)
    (hrange : ∀ d ∈ st.ifaddr, qualifies st.multicastAddr.ai_family d = true →
      os.if_nametoindex d.ifa_name ≤ MAX_IF_INDEX) :
    ∃ v, (mcast_recv_socket os MAX_IF_INDEX multicastIP multicastPort
      multicastRecvBufSize).1 = Outcome.ret v := by
  have hb := recv_loop_in_bounds os st.sock st.multicastAddr st.ifaddr
    (List.replicate (MAX_IF_INDEX + 1) 0) st.trace
    (by
      intro d hd hq
      have := hrange d hd hq
      simp only [List.length_replicate]
      omega)
  rw [mcast_recv_socket_unfold _ _ _ _ _ st hs]
  rcases hx : recv_loop os st.sock st.multicastAddr st.ifaddr
      (List.replicate (MAX_IF_INDEX + 1) 0) st.trace with ⟨res, h⟩
  rw [hx] at hb
  cases res with
  | completed u => exact ⟨st.sock, rfl⟩
  | error => exact ⟨-1, rfl⟩
  | undefined => exact absurd rfl hb

/-- C3 (as stated, refuted): the claim is made for every interface list, but
the code indexes `if_index_used` without comparing the index with
`MAX_IF_INDEX`.  With `MAX_IF_INDEX = 2`, on the list `eth0` (index 2), `eth1`
(index 3) the read for `eth1` is out of bounds: the behaviour is undefined, the
call is not bound to return -1, and no join for `eth1` has been issued.  On
the list `eth1`, `wlan0` the qualifying descriptor `wlan0` has index 0, yet the
result is not the promised -1: the out-of-bounds read for `eth1` comes first. -/
theorem mcast_recv_socket_index_beyond_table :
    (mcast_recv_socket (demo_os group_v4 16 [eth0_v4, eth1_v4]) 2 "239.1.2.3" "5000" 65536)
      = (Outcome.undefined,
          (demo_state group_v4 16 [eth0_v4, eth1_v4] 65536).trace ++
            [⟨Call.if_nametoindex "eth0", 2⟩,
             ⟨Call.setsockopt 3 Level.IPPROTO_IP OptName.IP_ADD_MEMBERSHIP
                (OptVal.ip_mreq 0xEF010203 0xC0A80001) 8, 0⟩,
             ⟨Call.if_nametoindex "eth1", 3⟩]) ∧
    qualifies SaFamily.AF_INET eth1_v4 = true ∧
    (mcast_recv_socket (demo_os group_v4 16 [eth0_v4, eth1_v4]) 2 "239.1.2.3" "5000" 65536).1
      ≠ Outcome.ret (-1) ∧
    (∀ e ∈ (mcast_recv_socket (demo_os group_v4 16 [eth0_v4, eth1_v4]) 2 "239.1.2.3" "5000"
        65536).2, e.call ≠ join_call 3 ⟨SaFamily.AF_INET, 0, 16, group_v4⟩
          ⟨SaFamily.AF_INET, 0, 0xC0A80101⟩ 3) ∧
    qualifies SaFamily.AF_INET wlan0_v4 = true ∧
    (demo_os group_v4 16 [eth1_v4, wlan0_v4]).if_nametoindex wlan0_v4.ifa_name = 0 ∧
    (mcast_recv_socket (demo_os group_v4 16 [eth1_v4, wlan0_v4]) 2 "239.1.2.3" "5000" 65536).1
      = Outcome.undefined ∧
    (mcast_recv_socket (demo_os group_v4 16 [eth1_v4, wlan0_v4]) 2 "239.1.2.3" "5000" 65536).1
      ≠ Outcome.ret (-1) := by
  refine ⟨rfl, rfl, ?_, ?_, rfl, rfl, rfl, ?_⟩ <;> decide

/-- C3 (amended): for an interface list whose qualifying descriptors all have
an index of at most `MAX_IF_INDEX`, `mcast_recv_socket` returns a value, and
(a) when that value is not -1 it is the socket, every qualifying descriptor has
a non-zero index, and for each of them the trace holds a successful group join
for its index (issued at a qualifying descriptor of that index), the group
being a well-formed IPv4 or IPv6 address; (b) if some qualifying descriptor has
index 0, the call returns -1; (c) when the loop reaches a qualifying descriptor
`d` and either its index is 0 or the join issued for it fails, the call returns
-1 and the failing call is the last before the lists are released, so nothing
is issued for a later descriptor; (d) if any join in the trace failed, the call
returns -1. -/
theorem mcast_recv_socket_all_or_nothing (os : OS) (MAX_IF_INDEX : Nat)
    (multicastIP multicastPort : String) (multicastRecvBufSize : Int) (st : RecvState)
    (hs : recv_setup os multicastIP multicastPort multicastRecvBufSize = Except.ok st)
    (hrange : ∀ d ∈ st.ifaddr, qualifies st.multicastAddr.ai_family d = true →
      os.if_nametoindex d.ifa_name ≤ MAX_IF_INDEX) :
    (∃ v, (mcast_recv_socket os MAX_IF_INDEX multicastIP multicastPort
        multicastRecvBufSize).1 = Outcome.ret v) ∧
    (∀ v, (mcast_recv_socket os MAX_IF_INDEX multicastIP multicastPort
          multicastRecvBufSize).1 = Outcome.ret v → v ≠ -1 →
      v = st.sock ∧
      ∀ d ∈ st.ifaddr, qualifies st.multicastAddr.ai_family d = true →
        os.if_nametoindex d.ifa_name ≠ 0 ∧ group_ok st.multicastAddr ∧
        ∃ d0 sa0, d0 ∈ st.ifaddr ∧ qualifies st.multicastAddr.ai_family d0 = true ∧
          d0.ifa_addr = some sa0 ∧ os.if_nametoindex d0.ifa_name = os.if_nametoindex d.ifa_name ∧
          (⟨join_call st.sock st.multicastAddr sa0 (os.if_nametoindex d.ifa_name), 0⟩ : Event)
            ∈ (mcast_recv_socket os MAX_IF_INDEX multicastIP multicastPort
                multicastRecvBufSize).2) ∧
    ((∃ d ∈ st.ifaddr, qualifies st.multicastAddr.ai_family d = true ∧
        os.if_nametoindex d.ifa_name = 0) →
      (mcast_recv_socket os MAX_IF_INDEX multicastIP multicastPort
          multicastRecvBufSize).1 = Outcome.ret (-1)) ∧
    (∀ (pre post : List Ifaddrs) (d : Ifaddrs) (sa : Sockaddr) (used1 : List Nat)
        (h1 : List Event),
      st.ifaddr = pre ++ d :: post → d.ifa_addr = some sa →
      qualifies st.multicastAddr.ai_family d = true →
      recv_loop os st.sock st.multicastAddr pre (List.replicate (MAX_IF_INDEX + 1) 0)
        st.trace = (LoopRes.completed used1, h1) →
      (os.if_nametoindex d.ifa_name = 0 →
        mcast_recv_socket os MAX_IF_INDEX multicastIP multicastPort multicastRecvBufSize
          = (Outcome.ret (-1),
              release (some st.localAddr) (some st.multicastAddr) st.ifaddr
                (h1 ++ [⟨Call.if_nametoindex d.ifa_name, 0⟩]))) ∧
      (os.if_nametoindex d.ifa_name ≠ 0 →
        used1[os.if_nametoindex d.ifa_name]? = some 0 →
        group_ok st.multicastAddr →
        os.respond (h1 ++ [⟨Call.if_nametoindex d.ifa_name, os.if_nametoindex d.ifa_name⟩])
          (join_call st.sock st.multicastAddr sa (os.if_nametoindex d.ifa_name)) ≠ 0 →
        mcast_recv_socket os MAX_IF_INDEX multicastIP multicastPort multicastRecvBufSize
          = (Outcome.ret (-1),
              release (some st.localAddr) (some st.multicastAddr) st.ifaddr
                (h1 ++ [⟨Call.if_nametoindex d.ifa_name, os.if_nametoindex d.ifa_name⟩,
                  ⟨join_call st.sock st.multicastAddr sa (os.if_nametoindex d.ifa_name),
                    os.respond
                      (h1 ++ [⟨Call.if_nametoindex d.ifa_name, os.if_nametoindex d.ifa_name⟩])
                      (join_call st.sock st.multicastAddr sa
                        (os.if_nametoindex d.ifa_name))⟩])))) ∧
    (∀ e ∈ (mcast_recv_socket os MAX_IF_INDEX multicastIP multicastPort
          multicastRecvBufSize).2, isJoin e = true → e.ret ≠ 0 →
      (mcast_recv_socket os MAX_IF_INDEX multicastIP multicastPort
          multicastRecvBufSize).1 = Outcome.ret (-1)) := by
  have hret := mcast_recv_socket_returns os MAX_IF_INDEX multicastIP multicastPort
    multicastRecvBufSize st hs hrange
  have hA : ∀ v, (mcast_recv_socket os MAX_IF_INDEX multicastIP multicastPort
          multicastRecvBufSize).1 = Outcome.ret v → v ≠ -1 →
      v = st.sock ∧
      ∀ d ∈ st.ifaddr, qualifies st.multicastAddr.ai_family d = true →
        os.if_nametoindex d.ifa_name ≠ 0 ∧ group_ok st.multicastAddr ∧
        ∃ d0 sa0, d0 ∈ st.ifaddr ∧ qualifies st.multicastAddr.ai_family d0 = true ∧
          d0.ifa_addr = some sa0 ∧ os.if_nametoindex d0.ifa_name = os.if_nametoindex d.ifa_name ∧
          (⟨join_call st.sock st.multicastAddr sa0 (os.if_nametoindex d.ifa_name), 0⟩ : Event)
            ∈ (mcast_recv_socket os MAX_IF_INDEX multicastIP multicastPort
                multicastRecvBufSize).2 := by
    intro v hv hne
    obtain ⟨hvs, _⟩ := mcast_recv_socket_success _ _ _ _ _ st hs v hv hne
    refine ⟨hvs, ?_⟩
    obtain ⟨hr, hJ⟩ := mcast_recv_socket_success_joins _ _ _ _ _ st hs v hv hne
    intro d hd hq
    have hidx := recv_loop_set_completed_index os st.sock st.multicastAddr st.ifaddr ∅
      st.trace _ hr d hd hq
    rcases join_plan_cover os _ _ ∅ d hd hq with h1 | h1
    · simp at h1
    · obtain ⟨p, hp, hp2⟩ := List.mem_map.1 h1
      obtain ⟨pre, post, hl, hqp, hip, _⟩ := join_plan_first os _ _ _ p hp
      obtain ⟨sa0, hsa0, _, _⟩ := (qualifies_iff _ _).1 hqp
      have hev : (⟨join_call st.sock st.multicastAddr sa0 (os.if_nametoindex d.ifa_name), 0⟩ :
          Event) ∈ (mcast_recv_socket os MAX_IF_INDEX multicastIP multicastPort
            multicastRecvBufSize).2.filter isJoin := by
        rw [hJ, List.mem_filterMap]
        exact ⟨p, hp, by simp [plan_event, hsa0, hp2]⟩
      refine ⟨hidx, ?_, p.1, sa0, ?_, hqp, hsa0, by rw [hip, hp2], (List.mem_filter.1 hev).1⟩
      · by_contra hbad
        rw [mcast_recv_socket_joins _ _ _ _ _ st hs, join_group_joins_bad os _ _ hbad,
          (recv_setup_ok _ _ _ _ _ hs).2.2.2.1] at hev
        simp at hev
      · rw [hl]; simp
  refine ⟨hret, hA, ?_, ?_, ?_⟩
  · rintro ⟨d, hd, hq, h0⟩
    obtain ⟨v, hv⟩ := hret
    by_cases hne : v = -1
    · rw [hv, hne]
    · exact absurd h0 ((hA v hv hne).2 d hd hq).1
  · intro pre post d sa used1 h1 hl hsa hq hpre
    have hreach := mcast_recv_socket_reach os MAX_IF_INDEX multicastIP multicastPort
      multicastRecvBufSize st pre post d used1 h1 hs hl hpre
    rw [recv_loop_step _ _ _ _ _ _ _ sa hsa hq] at hreach
    refine ⟨fun h0 => ?_, fun h0 hnew hg hfail => ?_⟩
    · rw [hreach]
      simp only [h0, ↓reduceIte, Nat.cast_zero]
    · rw [hreach, join_group_ok _ _ _ _ _ _ hg]
      simp only [h0, ↓reduceIte, hnew, ne_eq, not_true_eq_false, hfail, not_false_eq_true,
        decide_True, List.append_assoc, List.singleton_append]
  · intro e he hj hr0
    obtain ⟨v, hv⟩ := hret
    by_cases hne : v = -1
    · rw [hv, hne]
    · exfalso
      obtain ⟨_, hJ⟩ := mcast_recv_socket_success_joins _ _ _ _ _ st hs v hv hne
      have hm : e ∈ (mcast_recv_socket os MAX_IF_INDEX multicastIP multicastPort
          multicastRecvBufSize).2.filter isJoin := List.mem_filter.2 ⟨he, hj⟩
      rw [hJ, List.mem_filterMap] at hm
      obtain ⟨p, _, hp⟩ := hm
      unfold plan_event at hp
      cases hpa : p.1.ifa_addr with
      | none => simp [hpa] at hp
      | some sa0 =>
        simp only [hpa, Option.map_some', Option.some.injEq] at hp
        rw [← hp] at hr0
        exact hr0 rfl

/-! ## Descriptor ownership -/

theorem open_fds_filter :
    ∀ (tr : List Event) (before : List Int),
      open_fds before tr = open_fds before (tr.filter isFdEvent) := by
  intro tr
  induction tr with
  | nil => intro before; rfl
  | cons e tr ih =>
    intro before
    obtain ⟨c, r⟩ := e
    cases c <;> simp only [open_fds, List.filter_cons, isFdEvent, ↓reduceIte,
      Bool.false_eq_true] <;> first | exact ih _ | (split <;> exact ih _)

theorem no_close_of_filter (tr : List Event) (d : SaFamily) (t p : Nat) (r : Int)
    (hf : tr.filter isFdEvent = [] ∨ tr.filter isFdEvent = [⟨Call.socket d t p, r⟩]) :
    ∀ e ∈ tr, isClose e = false := by
  intro e he
  by_contra hc
  have hcl : isClose e = true := by simpa using hc
  have hfd : isFdEvent e = true := by
    obtain ⟨c, r2⟩ := e
    cases c <;> simp_all [isClose, isFdEvent]
  have hm : e ∈ tr.filter isFdEvent := List.mem_filter.2 ⟨he, hfd⟩
  rcases hf with hf | hf
  · rw [hf] at hm; simp at hm
  · rw [hf] at hm
    simp only [List.mem_singleton] at hm
    rw [hm] at hcl
    simp [isClose] at hcl

theorem open_fds_of_filter (tr : List Event) (before : List Int) (d : SaFamily) (t p : Nat)
    (r : Int) (fd : Int) (d2 : SaFamily) (t2 p2 : Nat)
    (hf : tr.filter isFdEvent = [] ∨ tr.filter isFdEvent = [⟨Call.socket d t p, r⟩])
    (hfd : 0 ≤ fd) (hm : (⟨Call.socket d2 t2 p2, fd⟩ : Event) ∈ tr) :
    open_fds before tr = fd :: before := by
  have hm2 : (⟨Call.socket d2 t2 p2, fd⟩ : Event) ∈ tr.filter isFdEvent :=
    List.mem_filter.2 ⟨hm, rfl⟩
  rcases hf with hf | hf
  · rw [hf] at hm2; simp at hm2
  · rw [hf] at hm2
    simp only [List.mem_singleton, Event.mk.injEq, Call.socket.injEq] at hm2
    rw [open_fds_filter, hf, ← hm2.2]
    simp [open_fds, hfd]

theorem mcast_send_socket_fd (os : OS) (multicastIP multicastPort : String)
    (multicastTTL : Int) :
    ∃ (d : SaFamily) (t p : Nat) (r : Int),
      (mcast_send_socket os multicastIP multicastPort multicastTTL).2.2.filter isFdEvent = [] ∨
      (mcast_send_socket os multicastIP multicastPort multicastTTL).2.2.filter isFdEvent
        = [⟨Call.socket d t p, r⟩] := by
  unfold mcast_send_socket
  cases hg : os.getaddrinfo (some multicastIP) (some multicastPort)
      ⟨SaFamily.AF_UNSPEC, SOCK_DGRAM, AI_NUMERICHOST⟩ with
  | error e =>
    refine ⟨SaFamily.AF_UNSPEC, 0, 0, 0, Or.inl ?_⟩
    simp [hg, List.filter_cons, isFdEvent]
  | ok ai =>
    refine ⟨ai.ai_family, ai.ai_socktype, 0,
      os.respond [⟨Call.getaddrinfo (some multicastIP) (some multicastPort)
        ⟨SaFamily.AF_UNSPEC, SOCK_DGRAM, AI_NUMERICHOST⟩, 0⟩]
        (Call.socket ai.ai_family ai.ai_socktype 0), Or.inr ?_⟩
    simp only [hg, sys, sysVoid]
    split_ifs <;> simp [List.filter_append, List.filter_cons, isFdEvent]

theorem mcast_recv_socket_fd (os : OS) (MAX_IF_INDEX : Nat)
    (multicastIP multicastPort : String) (multicastRecvBufSize : Int) :
    ∃ (d : SaFamily) (t p : Nat) (r : Int),
      (mcast_recv_socket os MAX_IF_INDEX multicastIP multicastPort
        multicastRecvBufSize).2.filter isFdEvent = [] ∨
      (mcast_recv_socket os MAX_IF_INDEX multicastIP multicastPort
        multicastRecvBufSize).2.filter isFdEvent = [⟨Call.socket d t p, r⟩] := by
  cases hs : recv_setup os multicastIP multicastPort multicastRecvBufSize with
  | ok st =>
    refine ⟨st.localAddr.ai_family, st.localAddr.ai_socktype, 0, st.sock, Or.inr ?_⟩
    rw [mcast_recv_socket_unfold _ _ _ _ _ st hs]
    have hl := recv_loop_fd os st.sock st.multicastAddr st.ifaddr
      (List.replicate (MAX_IF_INDEX + 1) 0) st.trace
    rw [(recv_setup_ok _ _ _ _ _ hs).2.2.2.2] at hl
    rcases hx : recv_loop os st.sock st.multicastAddr st.ifaddr
      (List.replicate (MAX_IF_INDEX + 1) 0) st.trace with ⟨res, h⟩
    rw [hx] at hl
    cases res <;> simp only [release_fd] <;> exact hl
  | error tr =>
    have hm : mcast_recv_socket os MAX_IF_INDEX multicastIP multicastPort multicastRecvBufSize
        = (Outcome.ret (-1), tr) := by
      unfold mcast_recv_socket
      simp only [hs]
    rw [hm]
    unfold recv_setup at hs
    cases hg1 : os.getaddrinfo (some multicastIP) none
        ⟨SaFamily.AF_UNSPEC, 0, AI_NUMERICHOST⟩ with
    | error e =>
      simp only [hg1, Except.error.injEq] at hs
      refine ⟨SaFamily.AF_UNSPEC, 0, 0, 0, Or.inl ?_⟩
      rw [← hs, release_fd]
      simp [List.filter_cons, isFdEvent]
    | ok ma =>
      simp only [hg1] at hs
      cases hg2 : os.getaddrinfo none (some multicastPort)
          ⟨ma.ai_family, SOCK_DGRAM, AI_PASSIVE⟩ with
      | error e =>
        simp only [hg2, Except.error.injEq] at hs
        refine ⟨SaFamily.AF_UNSPEC, 0, 0, 0, Or.inl ?_⟩
        rw [← hs, release_fd]
        simp [List.filter_cons, isFdEvent]
      | ok la =>
        simp only [hg2, sys] at hs
        refine ⟨la.ai_family, la.ai_socktype, 0,
          os.respond [⟨Call.getaddrinfo (some multicastIP) none
              ⟨SaFamily.AF_UNSPEC, 0, AI_NUMERICHOST⟩, 0⟩,
            ⟨Call.getaddrinfo none (some multicastPort)
              ⟨ma.ai_family, SOCK_DGRAM, AI_PASSIVE⟩, 0⟩]
            (Call.socket la.ai_family la.ai_socktype 0), Or.inr ?_⟩
        split_ifs at hs
        all_goals try (cases hi : os.getifaddrs <;> simp only [hi] at hs)
        all_goals first
          | (simp only [Except.error.injEq] at hs
             rw [← hs, release_fd]
             simp [List.filter_append, List.filter_cons, isFdEvent])
          | cases hs

/-- C1 (as stated, refuted): on a host where setting `IP_MULTICAST_TTL` fails,
`mcast_send_socket` returns -1 after `socket` returned descriptor 3, and
descriptor 3 is still open; likewise `mcast_recv_socket` returns -1 when the
group join fails and leaves descriptor 3 open.  No `close` is in either trace. -/
theorem failed_build_leaves_socket_open :
    (mcast_send_socket (failing_os group_v4 16 []
        (Call.setsockopt 3 Level.IPPROTO_IP OptName.IP_MULTICAST_TTL (OptVal.int 4) 4))
        "239.1.2.3" "5000" 4).1 = -1 ∧
    (mcast_send_socket (failing_os group_v4 16 []
        (Call.setsockopt 3 Level.IPPROTO_IP OptName.IP_MULTICAST_TTL (OptVal.int 4) 4))
        "239.1.2.3" "5000" 4).2.2
      = [⟨Call.getaddrinfo (some "239.1.2.3") (some "5000")
            ⟨SaFamily.AF_UNSPEC, SOCK_DGRAM, AI_NUMERICHOST⟩, 0⟩,
         ⟨Call.socket SaFamily.AF_INET 2 0, 3⟩,
         ⟨Call.setsockopt 3 Level.IPPROTO_IP OptName.IP_MULTICAST_TTL (OptVal.int 4) 4, -1⟩,
         ⟨Call.freeaddrinfo ⟨SaFamily.AF_INET, 2, 16, group_v4⟩, 0⟩] ∧
    open_fds [] (mcast_send_socket (failing_os group_v4 16 []
        (Call.setsockopt 3 Level.IPPROTO_IP OptName.IP_MULTICAST_TTL (OptVal.int 4) 4))
        "239.1.2.3" "5000" 4).2.2 = [3] ∧
    open_fds [] (mcast_send_socket (failing_os group_v4 16 []
        (Call.setsockopt 3 Level.IPPROTO_IP OptName.IP_MULTICAST_TTL (OptVal.int 4) 4))
        "239.1.2.3" "5000" 4).2.2 ≠ [] ∧
    (mcast_recv_socket (failing_os group_v4 16 [eth0_v4]
        (Call.setsockopt 3 Level.IPPROTO_IP OptName.IP_ADD_MEMBERSHIP
          (OptVal.ip_mreq 0xEF010203 0xC0A80001) 8))
        8 "239.1.2.3" "5000" 65536).1 = Outcome.ret (-1) ∧
    open_fds [] (mcast_recv_socket (failing_os group_v4 16 [eth0_v4]
        (Call.setsockopt 3 Level.IPPROTO_IP OptName.IP_ADD_MEMBERSHIP
          (OptVal.ip_mreq 0xEF010203 0xC0A80001) 8))
        8 "239.1.2.3" "5000" 65536).2 = [3] := by
  refine ⟨rfl, rfl, rfl, ?_, rfl, rfl⟩
  decide

/-- C1 (amended): on every path of `mcast_send_socket` and of
`mcast_recv_socket` that returns -1 after `socket` succeeded with descriptor
`fd`, no `close` has been issued and the descriptors open on return are those
open before the call together with `fd`. -/
theorem failed_build_keeps_socket (before : List Int) (fd : Int) (dom : SaFamily)
    (ty pr : Nat) (hfd : 0 ≤ fd) :
    (∀ (os : OS) (multicastIP multicastPort : String) (multicastTTL : Int),
      (mcast_send_socket os multicastIP multicastPort multicastTTL).1 = -1 →
      (⟨Call.socket dom ty pr, fd⟩ : Event)
        ∈ (mcast_send_socket os multicastIP multicastPort multicastTTL).2.2 →
      open_fds before (mcast_send_socket os multicastIP multicastPort multicastTTL).2.2
        = fd :: before ∧
      ∀ e ∈ (mcast_send_socket os multicastIP multicastPort multicastTTL).2.2,
        isClose e = false) ∧
    (∀ (os : OS) (MAX_IF_INDEX : Nat) (multicastIP multicastPort : String)
        (multicastRecvBufSize : Int),
      (mcast_recv_socket os MAX_IF_INDEX multicastIP multicastPort multicastRecvBufSize).1
        = Outcome.ret (-1) →
      (⟨Call.socket dom ty pr, fd⟩ : Event)
        ∈ (mcast_recv_socket os MAX_IF_INDEX multicastIP multicastPort
            multicastRecvBufSize).2 →
      open_fds before (mcast_recv_socket os MAX_IF_INDEX multicastIP multicastPort
          multicastRecvBufSize).2 = fd :: before ∧
      ∀ e ∈ (mcast_recv_socket os MAX_IF_INDEX multicastIP multicastPort
          multicastRecvBufSize).2, isClose e = false) := by
  constructor
  · intro os ip port ttl _ hm
    obtain ⟨d, t, p, r, hf⟩ := mcast_send_socket_fd os ip port ttl
    exact ⟨open_fds_of_filter _ before d t p r fd dom ty pr hf hfd hm,
      no_close_of_filter _ d t p r hf⟩
  · intro os mx ip port size _ hm
    obtain ⟨d, t, p, r, hf⟩ := mcast_recv_socket_fd os mx ip port size
    exact ⟨open_fds_of_filter _ before d t p r fd dom ty pr hf hfd hm,
      no_close_of_filter _ d t p r hf⟩

/-- Witness for C1 (amended): the build whose `bind` fails, with descriptors
0, 1 and 2 open before the call. -/
theorem failed_build_keeps_socket_witness :
    open_fds [0, 1, 2] (mcast_recv_socket (failing_os group_v4 16 [eth0_v4]
        (Call.bind 3 ⟨SaFamily.AF_INET, 5000, 0⟩ 16)) 8 "239.1.2.3" "5000" 65536).2
      = 3 :: [0, 1, 2] ∧
    ∀ e ∈ (mcast_recv_socket (failing_os group_v4 16 [eth0_v4]
        (Call.bind 3 ⟨SaFamily.AF_INET, 5000, 0⟩ 16)) 8 "239.1.2.3" "5000" 65536).2,
      isClose e = false :=
  (failed_build_keeps_socket [0, 1, 2] 3 SaFamily.AF_INET 2 0 (by decide)).2
    (failing_os group_v4 16 [eth0_v4] (Call.bind 3 ⟨SaFamily.AF_INET, 5000, 0⟩ 16))
    8 "239.1.2.3" "5000" 65536 rfl (by decide)

/-- Witness for C9: on the sample host, a send socket built with TTL 4 reads
back 4 from `IP_MULTICAST_TTL`. -/
theorem mcast_send_socket_ttl_witness :
    sockopt_read 3 Level.IPPROTO_IP OptName.IP_MULTICAST_TTL
        (mcast_send_socket (demo_os group_v4 16 []) "239.1.2.3" "5000" 4).2.2
      = some (OptVal.int 4) ∧
    sockopt_read 3 Level.IPPROTO_IPV6 OptName.IPV6_MULTICAST_HOPS
        (mcast_send_socket (demo_os group_v4 16 []) "239.1.2.3" "5000" 4).2.2 = none :=
  ((mcast_send_socket_ttl (demo_os group_v4 16 []) "239.1.2.3" "5000" 4 3
    ⟨SaFamily.AF_INET, SOCK_DGRAM, 16, group_v4⟩ _ rfl (by decide) (Or.inl rfl)).2.2.1 rfl).2

/-- Witness for C2: two addresses of `eth0`, the loopback and `eth1`; the
call returns the socket and its joins are those of the plan. -/
theorem mcast_recv_socket_one_join_per_index_witness :
    (mcast_recv_socket (demo_os group_v4 16 [eth0_v4, eth0_v4b, lo_v4, eth1_v4]) 8
        "239.1.2.3" "5000" 65536).2.filter isJoin
      = (join_plan (demo_os group_v4 16 [eth0_v4, eth0_v4b, lo_v4, eth1_v4]) SaFamily.AF_INET
          [eth0_v4, eth0_v4b, lo_v4, eth1_v4] ∅).filterMap
            (plan_event 3 ⟨SaFamily.AF_INET, 0, 16, group_v4⟩) :=
  (mcast_recv_socket_one_join_per_index
    (demo_os group_v4 16 [eth0_v4, eth0_v4b, lo_v4, eth1_v4]) 8 "239.1.2.3" "5000" 65536
    (demo_state group_v4 16 [eth0_v4, eth0_v4b, lo_v4, eth1_v4] 65536) rfl
    (by decide)).2.2.2.2 3 rfl (by decide)

/-- Witness for C3 (amended): two addresses of `eth0`, the loopback and `eth1`,
all indices at most 8; the call returns descriptor 3, and for the second
address of `eth0` (index 2) the trace holds a successful join for index 2,
issued at a qualifying descriptor of that index. -/
theorem mcast_recv_socket_all_or_nothing_witness :
    (demo_os group_v4 16 [eth0_v4, eth0_v4b, lo_v4, eth1_v4]).if_nametoindex
        eth0_v4b.ifa_name ≠ 0 ∧
    group_ok (demo_state group_v4 16 [eth0_v4, eth0_v4b, lo_v4, eth1_v4] 65536).multicastAddr ∧
    ∃ d0 sa0, d0 ∈ [eth0_v4, eth0_v4b, lo_v4, eth1_v4] ∧
      qualifies SaFamily.AF_INET d0 = true ∧ d0.ifa_addr = some sa0 ∧
      (demo_os group_v4 16 [eth0_v4, eth0_v4b, lo_v4, eth1_v4]).if_nametoindex d0.ifa_name
        = (demo_os group_v4 16 [eth0_v4, eth0_v4b, lo_v4, eth1_v4]).if_nametoindex
            eth0_v4b.ifa_name ∧
      (⟨join_call 3 ⟨SaFamily.AF_INET, 0, 16, group_v4⟩ sa0
          ((demo_os group_v4 16 [eth0_v4, eth0_v4b, lo_v4, eth1_v4]).if_nametoindex
            eth0_v4b.ifa_name), 0⟩ : Event)
        ∈ (mcast_recv_socket (demo_os group_v4 16 [eth0_v4, eth0_v4b, lo_v4, eth1_v4]) 8
            "239.1.2.3" "5000" 65536).2 :=
  (((mcast_recv_socket_all_or_nothing
    (demo_os group_v4 16 [eth0_v4, eth0_v4b, lo_v4, eth1_v4]) 8 "239.1.2.3" "5000" 65536
    (demo_state group_v4 16 [eth0_v4, eth0_v4b, lo_v4, eth1_v4] 65536) rfl
      (by decide)).2.1 3 rfl (by decide)).2 eth0_v4b (by decide) rfl)

/-- Witness for C8: an IPv6 group and one IPv6 interface of index 2; the join
is `IPV6_ADD_MEMBERSHIP` with the group address and index 2. -/
theorem mcast_recv_socket_join_request_witness :
    ∃ t, (mcast_recv_socket (demo_os group_v6 28 [eth0_v6]) 8 "239.1.2.3" "5000" 65536).2
      = (demo_state group_v6 28 [eth0_v6] 65536).trace
        ++ [⟨Call.if_nametoindex "eth0", ((2 : Nat) : Int)⟩,
            ⟨Call.setsockopt 3 Level.IPPROTO_IPV6 OptName.IPV6_ADD_MEMBERSHIP
                (OptVal.ipv6_mreq 0xFF020000000000000000000000010003 2) sizeof_ipv6_mreq,
              (demo_os group_v6 28 [eth0_v6]).respond
                ((demo_state group_v6 28 [eth0_v6] 65536).trace
                  ++ [⟨Call.if_nametoindex "eth0", ((2 : Nat) : Int)⟩])
                (Call.setsockopt 3 Level.IPPROTO_IPV6 OptName.IPV6_ADD_MEMBERSHIP
                  (OptVal.ipv6_mreq 0xFF020000000000000000000000010003 2) sizeof_ipv6_mreq)⟩]
        ++ t :=
  (mcast_recv_socket_join_request (demo_os group_v6 28 [eth0_v6]) 8 "239.1.2.3" "5000" 65536
    (demo_state group_v6 28 [eth0_v6] 65536) [] [] eth0_v6
    ⟨SaFamily.AF_INET6, 0, 0xFE800000000000000000000000000001⟩ (List.replicate (8 + 1) 0)
    (demo_state group_v6 28 [eth0_v6] 65536).trace rfl rfl rfl rfl rfl (by decide) rfl).2.1
    ⟨rfl, rfl⟩

end Msock
